import Mathlib

/-!
# Notifications.cpp: registry, lifecycle and layout of notification windows

A shallow embedding of `src/Notifications.cpp`.

* A `NotificationWnd*` is a `Nat`: the index of the object in `State.heap`.
  `new` appends a fresh object, `delete` marks the object as not alive and
  records the call in `State.deleted`.  The storage of a deleted object keeps
  its last field values; every access through a pointer whose object is not
  alive is recorded in `State.staleReads`.
* `gNotifs` is the list `State.gNotifs` (`Vec::Append` is `++ [x]`,
  `Vec::Remove` is `List.erase`, `Vec::Contains` is membership).
* `uitask::Post` appends to `State.tasks`; the UI thread later executes the
  oldest posted task (`runTask`).
* The window system is external.  The part of it the code observes is kept
  next to the object owning the window: its parent, text, rectangle (in the
  client coordinates of the parent) and the timer `kNotifTimerTimeoutId`.
  Screen metrics, text measurement and the UI direction are in `Env`.
* Pixel geometry is computed over `Int`; `CalcPerc` computes in 32-bit
  arithmetic (`wrap32`, `idiv32`); `ReportIf` only files a report and has no
  effect on the state of this module; `shrinkLimit` (a float never read by
  the live code), fonts and painting are left out.
* An execution is a list of operations (`Op`), each with the environment it
  happens in; `run` executes it from a given state.
-/

namespace Notifications

/-! ## Data model -/

/-- Window handles: `nullptr`, a window of the host application, or the window
created for the notification object `h`. -/
inductive HWND where
  | null
  | host (n : Nat)
  | notif (h : Nat)
  deriving DecidableEq

/-- The type `Kind`: an identity tag compared by identity; `none` is `nullptr`. -/
abbrev Kind := Option String

def kNotifCursorPos : Kind := some "cursorPosHelper"
def kNotifActionResponse : Kind := some "responseToAction"
def kNotifPageInfo : Kind := some "pageInfoHelper"
def kNotifAdHoc : Kind := some "notifAdHoc"

def kPadding : Int := 6
def kTopLeftMargin : Int := 8
def kCloseLeftMargin : Int := 16
def kProgressDy : Int := 5

def WM_ERASEBKGND : Nat := 0x0014
def WM_SETCURSOR : Nat := 0x0020
def WM_MOUSEMOVE : Nat := 0x0200
def WM_LBUTTONUP : Nat := 0x0202
def WM_MOUSELEAVE : Nat := 0x02A3

structure Point where
  x : Int
  y : Int
  deriving DecidableEq

structure Size where
  dx : Int
  dy : Int
  deriving DecidableEq

structure Rect where
  x : Int
  y : Int
  dx : Int
  dy : Int
  deriving DecidableEq

/-- Modelled from the spec: `Point::IsEmpty` of utils/GeomUtil, the point at
the origin. -/
def Point.IsEmpty (p : Point) : Bool := p.x == 0 && p.y == 0

/-- Modelled from the spec: `Rect::Contains` of utils/GeomUtil, "a pointer
position is over close iff inside the close sub-rectangle". -/
def Rect.Contains (r : Rect) (pt : Point) : Bool :=
  if pt.x < r.x then false
  else if pt.x > r.x + r.dx then false
  else if pt.y < r.y then false
  else if pt.y > r.y + r.dy then false
  else true

/-- The type `NotificationWndRemoved`, a `Func1<NotificationWnd*>`: empty, bound to
`NotifsRemoveNotification` (what `Create` installs by default), or bound to a
function of the host application. -/
inductive NotificationWndRemoved where
  | empty
  | notifsRemoveNotification
  | host (id : Nat)
  deriving DecidableEq

def NotificationWndRemoved.IsValid : NotificationWndRemoved → Bool
  | .empty => false
  | _ => true

/-- The struct `NotificationCreateArgs` (declared in Notifications.h), without the font
and the shrink limit. -/
structure NotificationCreateArgs where
  hwndParent : HWND
  groupId : Kind
  warning : Bool
  timeoutMs : Int
  msg : String
  onRemoved : NotificationWndRemoved

/-- A `NotificationWnd` object together with the state of its window. -/
structure NotificationWnd where
  /-- The member `Wnd::hwnd`. -/
  hwnd : HWND
  timeoutMs : Int
  highlight : Bool
  wndRemovedCb : NotificationWndRemoved
  groupId : Kind
  progressPerc : Int
  rTxt : Rect
  rClose : Rect
  rProgress : Rect
  /-- window state: `GetParent(hwnd)` -/
  parent : HWND
  /-- window state: the window text -/
  text : String
  /-- window state: the window rectangle, in client coordinates of `parent` -/
  pos : Rect
  /-- window state: the timer `kNotifTimerTimeoutId` and its period, if set -/
  timer : Option Int
  /-- storage: `false` once `delete` ran on the object -/
  alive : Bool
  deriving DecidableEq

/-- Posted tasks: `MkFunc0(NotifRemove, wnd)` and `MkFunc0(NotifDelete, wnd)`. -/
inductive UITask where
  | NotifRemove (wnd : Nat)
  | NotifDelete (wnd : Nat)
  deriving DecidableEq

/-- What the code consumes from the window system and the settings. -/
structure Env where
  /-- the DPI used by `DpiScale` -/
  dpi : Int
  /-- the value of `IsUIRtl()` -/
  isRtl : Bool
  /-- the value of `GetSystemMetrics(SM_CXVSCROLL)` -/
  cxVScroll : Int
  /-- the value of `ClientRect(hwnd)` for a host window -/
  clientRect : HWND → Rect
  /-- the value of `WindowRect(hwnd)` for a host window -/
  windowRect : HWND → Rect
  /-- the value of `GetParent(hwnd)` for a host window -/
  hostParent : Nat → HWND
  /-- the result of `HdcMeasureText` with the font of the notification -/
  measureText : String → Size
  /-- the constant `kNotifDefaultTimeOut` (declared in Notifications.h) -/
  kNotifDefaultTimeOut : Int

structure State where
  heap : List NotificationWnd
  gNotifs : List Nat
  tasks : List UITask
  /-- the `delete` calls so far, oldest first -/
  deleted : List Nat
  /-- accesses through a pointer whose object was not alive, oldest first -/
  staleReads : List Nat
  deriving DecidableEq

/-- No object was ever allocated, the registry and the task queue are empty. -/
def State.init : State := ⟨[], [], [], [], []⟩

/-- The result of `new NotificationWnd()`: the default member initialisers. -/
def NotificationWnd.fresh (env : Env) : NotificationWnd where
  hwnd := .null
  timeoutMs := env.kNotifDefaultTimeOut
  highlight := false
  wndRemovedCb := .empty
  groupId := none
  progressPerc := -1
  rTxt := ⟨0, 0, 0, 0⟩
  rClose := ⟨0, 0, 0, 0⟩
  rProgress := ⟨0, 0, 0, 0⟩
  parent := .null
  text := ""
  pos := ⟨0, 0, 0, 0⟩
  timer := none
  alive := true

/-- What a pointer to storage that was never allocated yields: nothing alive. -/
def NotificationWnd.unallocated : NotificationWnd where
  hwnd := .null
  timeoutMs := 0
  highlight := false
  wndRemovedCb := .empty
  groupId := none
  progressPerc := -1
  rTxt := ⟨0, 0, 0, 0⟩
  rClose := ⟨0, 0, 0, 0⟩
  rProgress := ⟨0, 0, 0, 0⟩
  parent := .null
  text := ""
  pos := ⟨0, 0, 0, 0⟩
  timer := none
  alive := false

/-- The object behind the pointer `h`. -/
def State.obj (s : State) (h : Nat) : NotificationWnd :=
  s.heap.getD h NotificationWnd.unallocated

/-- Is `h` a pointer to an object that was allocated and not yet deleted? -/
def State.isLive (s : State) (h : Nat) : Bool := (s.obj h).alive

/-- Records an access through `h` when its object is not alive. -/
def State.touch (s : State) (h : Nat) : State :=
  if s.isLive h then s else { s with staleReads := s.staleReads ++ [h] }

def State.touchAll (s : State) (hs : List Nat) : State := hs.foldl State.touch s

/-- Writes fields of the object behind `h`. -/
def State.modify (s : State) (h : Nat) (f : NotificationWnd → NotificationWnd) : State :=
  { s with heap := s.heap.set h (f (s.obj h)) }

/-- The window of an object exists from a successful `CreateCustom` until the
object is deleted (`~Wnd` destroys the window). -/
def NotificationWnd.hasWindow (w : NotificationWnd) : Bool := w.alive && w.hwnd != .null

/-- The method `HasProgress`. -/
def NotificationWnd.HasProgress (w : NotificationWnd) : Bool := decide (w.progressPerc ≥ 0)

/-- The parent window, `HwndGetParent` and `GetParent`. -/
def HwndGetParent (env : Env) (s : State) : HWND → HWND
  | .null => .null
  | .host n => env.hostParent n
  | .notif h => if (s.obj h).hasWindow then (s.obj h).parent else .null

/-- Modelled from the spec: `MulDiv` of the Win32 API, the quotient `a * b / c`
rounded to the nearest integer, halves away from zero, and -1 when `c` is 0. -/
def MulDiv (a b c : Int) : Int :=
  if c = 0 then -1
  else
    let p := a * b
    let q := (2 * p.natAbs + c.natAbs) / (2 * c.natAbs)
    if (decide (p < 0)) != (decide (c < 0)) then -(q : Int) else (q : Int)

/-- Modelled from the spec: `DpiScale` of utils/Dpi, "x*dpi/96 rounded as
MulDiv does". -/
def DpiScale (env : Env) (x : Int) : Int := MulDiv x env.dpi 96

/-! ## Window primitives -/

/-- The rectangle `WindowRect(hwnd)` of the window of `w`, mapped to its parent;
all zero when the window does not exist. -/
def NotificationWnd.WindowRect (w : NotificationWnd) : Rect :=
  if w.hasWindow then w.pos else ⟨0, 0, 0, 0⟩

/-- The call `SetWindowPos(hwnd, nullptr, 0, 0, dx, dy, SWP_NOMOVE | ...)`. -/
def NotificationWnd.SetWindowSize (w : NotificationWnd) (dx dy : Int) : NotificationWnd :=
  if w.hasWindow then { w with pos := { w.pos with dx := dx, dy := dy } } else w

/-- The call `SetWindowPos(hwnd, nullptr, x, y, 0, 0, SWP_NOSIZE | ...)`. -/
def NotificationWnd.SetWindowXY (w : NotificationWnd) (x y : Int) : NotificationWnd :=
  if w.hasWindow then { w with pos := { w.pos with x := x, y := y } } else w

/-- The call `HwndSetText(hwnd, msg)`. -/
def NotificationWnd.HwndSetText (w : NotificationWnd) (msg : String) : NotificationWnd :=
  if w.hasWindow then { w with text := msg } else w

/-- The call `SetTimer(hwnd, kNotifTimerTimeoutId, ms, nullptr)`: sets the timer of
the window, replacing the one set before. -/
def NotificationWnd.SetTimer (w : NotificationWnd) (ms : Int) : NotificationWnd :=
  if w.hasWindow then { w with timer := some ms } else w

/-- The rectangle `WindowRect(hwnd)` mapped to the parent, for any handle. -/
def WindowRect (env : Env) (s : State) : HWND → Rect
  | .notif h => (s.obj h).WindowRect
  | hwnd => env.windowRect hwnd

/-- The call `SetWindowPos(hwnd, nullptr, x, y, 0, 0, SWP_NOSIZE | SWP_NOZORDER)`;
windows of the host are not part of the state. -/
def SetWindowPos (hwnd : HWND) (x y : Int) (s : State) : State :=
  match hwnd with
  | .notif h => s.modify h (fun w => w.SetWindowXY x y)
  | _ => s

/-- The call `uitask::Post`. -/
def State.post (s : State) (t : UITask) : State := { s with tasks := s.tasks ++ [t] }

/-- The statement `delete wnd`. -/
def State.delete (s : State) (wnd : Nat) : State :=
  let s := s.touch wnd
  { s.modify wnd (fun w => { w with alive := false }) with deleted := s.deleted ++ [wnd] }

/-! ## The code of Notifications.cpp -/

def GetForHwnd (env : Env) (hwnd : HWND) (s : State) : List Nat × State :=
  (s.gNotifs.filter (fun wnd => HwndGetParent env s (s.obj wnd).hwnd == hwnd),
   s.touchAll s.gNotifs)

def IsNotificationValid (wnd : Nat) (s : State) : Bool := decide (wnd ∈ s.gNotifs)

def GetForSameHwnd (env : Env) (wnd : Nat) (s : State) : List Nat × State :=
  let s := s.touch wnd
  let parent := HwndGetParent env s (s.obj wnd).hwnd
  GetForHwnd env parent s

/-- The loop of `RelayoutNotifications`. -/
def relayoutLoop (env : Env) (frame : Rect) (topLeftMargin dyPadding : Int) :
    List Nat → Int → State → State
  | [], _, s => s
  | wnd :: rest, y, s =>
    let s := s.touch wnd
    let rect := WindowRect env s (s.obj wnd).hwnd
    let x := if env.isRtl then frame.dx - rect.dx - topLeftMargin - env.cxVScroll
             else topLeftMargin
    let s := SetWindowPos (s.obj wnd).hwnd x y s
    relayoutLoop env frame topLeftMargin dyPadding rest (y + (rect.dy + dyPadding)) s

def RelayoutNotifications (env : Env) (hwnd : HWND) (s : State) : State :=
  let parent := HwndGetParent env s hwnd
  let (wnds, s) := GetForHwnd env parent s
  match wnds with
  | [] => s
  | first :: _ =>
    let s := s.touch first
    let hwndCanvas := HwndGetParent env s (s.obj first).hwnd
    let frame := env.clientRect hwndCanvas
    let topLeftMargin := DpiScale env kTopLeftMargin
    let dyPadding := DpiScale env kPadding
    relayoutLoop env frame topLeftMargin dyPadding wnds topLeftMargin s

def NotifsRemoveNotification (env : Env) (wnd : Nat) (s : State) : State :=
  if wnd ∈ s.gNotifs then
    let s := { s with gNotifs := s.gNotifs.erase wnd }
    let s := s.touch wnd
    let s := RelayoutNotifications env (s.obj wnd).hwnd s
    s.delete wnd
  else s

def GetWndX (wnd : Nat) (s : State) : Int × State :=
  let s := s.touch wnd
  ((s.obj wnd).WindowRect.x, s)

def NotificationWnd.Layout (env : Env) (message : String) (w : NotificationWnd) :
    NotificationWnd :=
  let szText := env.measureText message
  let padX := DpiScale env 12
  let padY := DpiScale env 8
  let dx := padX + szText.dx + padX
  let dy := padY + szText.dy + padY
  let rTxt : Rect := ⟨padX, padY, szText.dx, szText.dy⟩
  let closeDx := DpiScale env 16
  let leftMargin := DpiScale env (kCloseLeftMargin - padX)
  let rClose : Rect := ⟨dx + leftMargin, padY, closeDx, closeDx + 2⟩
  let dx := dx + (leftMargin + closeDx + padX)
  let progressDy := DpiScale env kProgressDy
  let rProgress : Rect := ⟨padX, dy, szText.dx, progressDy⟩
  let dy := if w.HasProgress then dy + (padY + progressDy + padY) else dy
  let rCurr := w.WindowRect
  let rClose : Rect :=
    if dx < rCurr.dx then { rClose with x := rClose.x + (rCurr.dx - dx) } else rClose
  let dx := if dx < rCurr.dx then rCurr.dx else dx
  let rClose : Rect := { rClose with y := (dy - closeDx).tdiv 2 + 1 }
  let w := { w with rTxt := rTxt, rClose := rClose, rProgress := rProgress }
  if dx = rCurr.dx ∧ dy = rCurr.dy then w
  else
    let w := w.SetWindowSize dx dy
    if env.isRtl then
      let parent := if w.hasWindow then w.parent else HWND.null
      let r := w.WindowRect
      let x := (env.windowRect parent).dx - r.dx - DpiScale env kTopLeftMargin - env.cxVScroll
      w.SetWindowXY x r.y
    else w

/-- The method `NotificationWnd::Create` run on the object at address `self`;
`created` tells whether `CreateCustom` produced a window. -/
def NotificationWnd.Create (env : Env) (args : NotificationCreateArgs) (created : Bool)
    (self : Nat) (w : NotificationWnd) : NotificationWnd :=
  let w := { w with highlight := args.warning }
  let w := { w with wndRemovedCb :=
    if args.onRemoved.IsValid then args.onRemoved else .notifsRemoveNotification }
  let w := { w with timeoutMs := args.timeoutMs }
  let w := if created then
      { w with hwnd := .notif self, parent := args.hwndParent, text := args.msg,
               pos := ⟨0, 0, 0, 0⟩ }
    else w
  let w := w.Layout env args.msg
  if w.timeoutMs ≠ 0 then w.SetTimer w.timeoutMs else w

def INT_MIN : Int := -2147483648

def INT_MAX : Int := 2147483647

/-- The value an `int` computation stores when its mathematical result is `x`:
the 32-bit two's complement representative, overflow wraps modulo 2^32. -/
def wrap32 (x : Int) : Int := (x + 2147483648) % 4294967296 - 2147483648

/-- The division of two `int` values: the quotient truncated toward zero, and
no result for a zero divisor or for `INT_MIN / -1`. -/
def idiv32 (a b : Int) : Option Int :=
  if b = 0 then none
  else if a = INT_MIN ∧ b = -1 then none
  else some (a.tdiv b)

/-- Modelled from the spec: `limitValue` of utils/BaseUtil.h, the value clamped
to the range from `min` to `max` (`CalcPerc` "returns 0% - 100%"). -/
def limitValue (val min max : Int) : Int :=
  if val < min then min else if val > max then max else val

/-- The function `CalcPerc`; `none` stands for a fault of the division. -/
def CalcPerc (current total : Int) : Option Int :=
  let total := if total ≤ 0 then 1 else total
  match idiv32 (wrap32 (100 * current)) total with
  | none => none
  | some perc => some (limitValue perc 0 100)

def NotificationWnd.UpdateMessage (env : Env) (msg : String) (timeoutMs : Int)
    (highlight : Bool) (w : NotificationWnd) : NotificationWnd :=
  let w := w.HwndSetText msg
  let w := { w with highlight := highlight }
  let w := { w with timeoutMs := timeoutMs }
  let w := w.Layout env msg
  if timeoutMs ≠ 0 then w.SetTimer timeoutMs else w

def UpdateNotificationProgress (env : Env) (wnd : Nat) (msg : String) (perc : Int)
    (s : State) : Bool × State :=
  if !IsNotificationValid wnd s then (false, s)
  else
    let s := s.touch wnd
    let s := s.modify wnd (fun w => { w with progressPerc := perc })
    let s := s.modify wnd (fun w => w.UpdateMessage env msg 0 false)
    (true, s)

/-- The call `wnd->wndRemovedCb.Call(wnd)`.  What a function of the host does is
not part of this module: the operations it calls are operations of their own. -/
def NotifRemove (env : Env) (wnd : Nat) (s : State) : State :=
  let s := s.touch wnd
  match (s.obj wnd).wndRemovedCb with
  | .notifsRemoveNotification => NotifsRemoveNotification env wnd s
  | .host _ => s
  | .empty => s

def NotifDelete (wnd : Nat) (s : State) : State := s.delete wnd

def OnTimer (wnd : Nat) (s : State) : State :=
  let s := s.touch wnd
  if (s.obj wnd).wndRemovedCb.IsValid then s.post (.NotifRemove wnd)
  else s.post (.NotifDelete wnd)

/-- The macro `GET_X_LPARAM`: the low word, sign extended. -/
def GET_X_LPARAM (lp : Int) : Int :=
  let v := lp % 65536
  if v < 32768 then v else v - 65536

/-- The macro `GET_Y_LPARAM`: the second word, sign extended. -/
def GET_Y_LPARAM (lp : Int) : Int :=
  let v := (lp / 65536) % 65536
  if v < 32768 then v else v - 65536

/-- The method `NotificationWnd::WndProc`; `cursor` is what `HwndGetCursorPos`
returns.  The result is the returned value, `none` for `WndProcDefault`. -/
def WndProc (wnd : Nat) (msg : Nat) (lp : Int) (cursor : Point) (s : State) :
    Option Int × State :=
  let s := s.touch wnd
  let w := s.obj wnd
  if msg = WM_SETCURSOR ∧ !cursor.IsEmpty ∧ w.rClose.Contains cursor then (some 1, s)
  else if msg = WM_ERASEBKGND then (some 1, s)
  else if msg = WM_MOUSEMOVE then (none, s)
  else if msg = WM_MOUSELEAVE then (some 0, s)
  else if WM_LBUTTONUP ≠ 0 then
    let pt : Point := ⟨GET_X_LPARAM lp, GET_Y_LPARAM lp⟩
    if w.rClose.Contains pt then
      if w.wndRemovedCb.IsValid then (some 0, s.post (.NotifRemove wnd))
      else (some 0, s.post (.NotifDelete wnd))
    else (none, s)
  else (none, s)

def NotifsRemoveForGroup (env : Env) (wnds : List Nat) (groupId : Kind) (s : State) :
    Nat × State :=
  let toRemove := wnds.filter (fun wnd => (s.obj wnd).groupId == groupId)
  let s := s.touchAll wnds
  let s := toRemove.foldl (fun s wnd => NotifsRemoveNotification env wnd s) s
  (toRemove.length, s)

/-- The overload `NotifsAdd(Vec<NotificationWnd*>&, NotificationWnd*, Kind)`. -/
def NotifsAddTo (env : Env) (wnds : List Nat) (wnd : Nat) (groupId : Kind) (s : State) :
    State :=
  let skipRemove := groupId == none || groupId == kNotifAdHoc
  let s := if !skipRemove then (NotifsRemoveForGroup env wnds groupId s).2 else s
  let s := s.touch wnd
  let s := s.modify wnd (fun w => { w with groupId := groupId })
  let s := { s with gNotifs := s.gNotifs ++ [wnd] }
  let s := s.touch wnd
  RelayoutNotifications env (s.obj wnd).hwnd s

def NotifsAdd (env : Env) (wnd : Nat) (groupId : Kind) (s : State) : State :=
  let (wnds, s) := GetForSameHwnd env wnd s
  NotifsAddTo env wnds wnd groupId s

def NotifsGetForGroup (wnds : List Nat) (groupId : Kind) (s : State) : Option Nat × State :=
  (wnds.find? (fun wnd => (s.obj wnd).groupId == groupId), s.touchAll wnds)

/-- The function `ShowNotification`; `created` tells whether the window could be
created.  The result is the new pointer, `none` for `nullptr`. -/
def ShowNotification (env : Env) (args : NotificationCreateArgs) (created : Bool)
    (s : State) : Option Nat × State :=
  let wnd := s.heap.length
  let s := { s with heap := s.heap ++ [NotificationWnd.fresh env] }
  let s := s.modify wnd (fun w => w.Create env args created wnd)
  if (s.obj wnd).hwnd = .null then (none, s.delete wnd)
  else (some wnd, NotifsAdd env wnd args.groupId s)

def NotificationUpdateMessage (env : Env) (wnd : Nat) (msg : String) (timeoutMs : Int)
    (highlight : Bool) (s : State) : State :=
  let s := s.touch wnd
  s.modify wnd (fun w => w.UpdateMessage env msg timeoutMs highlight)

def RemoveNotification (env : Env) (wnd : Nat) (s : State) : State :=
  NotifsRemoveNotification env wnd s

def RemoveNotificationsForGroup (env : Env) (hwnd : HWND) (kind : Kind) (s : State) :
    Bool × State :=
  let (wnds, s) := GetForHwnd env hwnd s
  let (n, s) := NotifsRemoveForGroup env wnds kind s
  (decide (n > 0), s)

def GetNotificationForGroup (env : Env) (hwnd : HWND) (kind : Kind) (s : State) :
    Option Nat × State :=
  let (wnds, s) := GetForHwnd env hwnd s
  NotifsGetForGroup wnds kind s

/-! ## Executions -/

/-- Runs one posted task. -/
def execTask (env : Env) (t : UITask) (s : State) : State :=
  match t with
  | .NotifRemove wnd => NotifRemove env wnd s
  | .NotifDelete wnd => NotifDelete wnd s

/-- The UI thread takes the oldest posted task off the queue and runs it. -/
def runTask (env : Env) (s : State) : State :=
  match s.tasks with
  | [] => s
  | t :: rest => execTask env t { s with tasks := rest }

/-- Runs the `n` oldest posted tasks, in the order they were posted. -/
def runTasks (env : Env) : Nat → State → State
  | 0, s => s
  | n + 1, s => runTasks env n (runTask env s)

/-- What can happen to the module: a call of one of its public functions, a
window message or timer delivered to a notification window, or the UI thread
running the next posted task. -/
inductive Op where
  | showNotification (args : NotificationCreateArgs) (created : Bool)
  | removeNotification (wnd : Nat)
  | removeNotificationsForGroup (hwnd : HWND) (kind : Kind)
  | getNotificationForGroup (hwnd : HWND) (kind : Kind)
  | updateNotificationProgress (wnd : Nat) (msg : String) (perc : Int)
  | notificationUpdateMessage (wnd : Nat) (msg : String) (timeoutMs : Int) (highlight : Bool)
  | relayoutNotifications (hwnd : HWND)
  | getWndX (wnd : Nat)
  | timer (wnd : Nat)
  | message (wnd : Nat) (msg : Nat) (lp : Int) (cursor : Point)
  | runTask

/-- One step.  The window system delivers a message only to a window that
exists, and a timer message only when the timer is set. -/
def step (env : Env) (op : Op) (s : State) : State :=
  match op with
  | .showNotification args created => (ShowNotification env args created s).2
  | .removeNotification wnd => RemoveNotification env wnd s
  | .removeNotificationsForGroup hwnd kind => (RemoveNotificationsForGroup env hwnd kind s).2
  | .getNotificationForGroup hwnd kind => (GetNotificationForGroup env hwnd kind s).2
  | .updateNotificationProgress wnd msg perc => (UpdateNotificationProgress env wnd msg perc s).2
  | .notificationUpdateMessage wnd msg timeoutMs highlight =>
      NotificationUpdateMessage env wnd msg timeoutMs highlight s
  | .relayoutNotifications hwnd => RelayoutNotifications env hwnd s
  | .getWndX wnd => (GetWndX wnd s).2
  | .timer wnd =>
      if (s.obj wnd).hasWindow ∧ (s.obj wnd).timer.isSome then OnTimer wnd s else s
  | .message wnd msg lp cursor =>
      if (s.obj wnd).hasWindow then (WndProc wnd msg lp cursor s).2 else s
  | .runTask => runTask env s

/-- Runs the operations in order, each in the environment it happens in. -/
def run (ops : List (Env × Op)) (s : State) : State :=
  ops.foldl (fun s eo => step eo.1 eo.2 s) s

/-! ## Invariants and frame conditions -/

/-- The fields of an object that the registry logic depends on. -/
structure Core where
  alive : Bool
  hwnd : HWND
  parent : HWND
  groupId : Kind
  cb : NotificationWndRemoved
  deriving DecidableEq

def NotificationWnd.core (w : NotificationWnd) : Core :=
  ⟨w.alive, w.hwnd, w.parent, w.groupId, w.wndRemovedCb⟩

def Core.kill (c : Core) : Core := { c with alive := false }

/-- The step from `s` to `s'` deleted exactly the objects `rs`, took them out of
the registry, and changed nothing else that the registry logic depends on. -/
structure Killed (rs : List Nat) (s s' : State) : Prop where
  len : s'.heap.length = s.heap.length
  core : ∀ k, (s'.obj k).core = if k ∈ rs then (s.obj k).core.kill else (s.obj k).core
  gNotifs : s'.gNotifs = s.gNotifs.filter (fun k => decide (k ∉ rs))
  tasks : s'.tasks = s.tasks
  deleted : s'.deleted = s.deleted ++ rs

/-- The states agree on the registry, the queue, the deletions and on the
registry-relevant fields of every object. -/
abbrev SameCore (s s' : State) : Prop := Killed [] s s'

/-- The invariant of the registry; `extra` lists the objects that are built
but not yet registered (non-empty only inside `ShowNotification`), and `d`
tells whether all callbacks are known to be the default one. -/
structure InvX (d : Bool) (extra : List Nat) (s : State) : Prop where
  nodup : s.gNotifs.Nodup
  reg_live : ∀ h ∈ s.gNotifs, (s.obj h).alive = true ∧ (s.obj h).hwnd = .notif h
  live_reg : ∀ h, (s.obj h).alive = true → h ∈ s.gNotifs ∨ h ∈ extra
  cb_valid : ∀ h, h < s.heap.length → (s.obj h).wndRemovedCb ≠ .empty
  cb_default : d = true → ∀ h, h < s.heap.length →
    (s.obj h).wndRemovedCb = .notifsRemoveNotification
  tasks_remove : ∀ t ∈ s.tasks, ∃ h, t = .NotifRemove h
  deleted_iff : ∀ h, h ∈ s.deleted ↔ (h < s.heap.length ∧ (s.obj h).alive = false)
  deleted_nodup : s.deleted.Nodup
  group_unique : ∀ a ∈ s.gNotifs, ∀ b ∈ s.gNotifs,
    (s.obj a).parent = (s.obj b).parent → (s.obj a).groupId = (s.obj b).groupId →
    (s.obj a).groupId ≠ none → (s.obj a).groupId ≠ kNotifAdHoc → a = b

abbrev Inv (s : State) : Prop := InvX false [] s

/-- The invariant of executions in which every notification was created with
the default removal callback. -/
abbrev InvD (s : State) : Prop := InvX true [] s

/-- The step from `s` to `s'` tagged the object `wnd` with `g` and appended it
to the registry, and changed nothing else that the registry logic depends on. -/
structure Added (wnd : Nat) (g : Kind) (s s' : State) : Prop where
  len : s'.heap.length = s.heap.length
  core : ∀ k, (s'.obj k).core
    = if k = wnd then { (s.obj k).core with groupId := g } else (s.obj k).core
  gNotifs : s'.gNotifs = s.gNotifs ++ [wnd]
  tasks : s'.tasks = s.tasks
  deleted : s'.deleted = s.deleted

/-- The state right after `new NotificationWnd()` and `wnd->Create(args)` in
`ShowNotification`. -/
def allocState (env : Env) (args : NotificationCreateArgs) (created : Bool) (s : State) :
    State :=
  { s with heap := s.heap ++ [(NotificationWnd.fresh env).Create env args created s.heap.length] }

/-- Does the operation leave the removal callback of a new notification to
the default, `NotifsRemoveNotification`? -/
def Op.defaultCb : Op → Bool
  | .showNotification args _ => !args.onRemoved.IsValid
  | _ => true

/-- The notifications that `NotifsAdd` replaces when `wnd` is added under the
group `g`: none for `nullptr` and `kNotifAdHoc`, otherwise the registered ones
with the parent of `wnd` and the group `g`. -/
def replaced (s : State) (wnd : Nat) (g : Kind) : List Nat :=
  if g = none ∨ g = kNotifAdHoc then []
  else s.gNotifs.filter
    (fun h => (s.obj h).groupId == g && (s.obj h).parent == (s.obj wnd).parent)

/-- The fields of an object that adding to the registry, removing from it,
deleting and stacking never write. -/
structure Look where
  text : String
  timeoutMs : Int
  highlight : Bool
  progressPerc : Int
  timer : Option Int
  rTxt : Rect
  rClose : Rect
  rProgress : Rect
  dx : Int
  dy : Int

def NotificationWnd.look (w : NotificationWnd) : Look :=
  ⟨w.text, w.timeoutMs, w.highlight, w.progressPerc, w.timer, w.rTxt, w.rClose, w.rProgress,
   w.pos.dx, w.pos.dy⟩

def SameLook (s s' : State) : Prop := ∀ k, (s'.obj k).look = (s.obj k).look

/-- A sample environment: 96 DPI, left to right, 8 pixels per character. -/
def sampleEnv : Env :=
  ⟨96, false, 17, fun _ => ⟨0, 0, 800, 600⟩, fun _ => ⟨0, 0, 800, 600⟩, fun _ => .null,
   fun m => ⟨8 * m.length, 16⟩, 3000⟩

/-- Arguments for a notification of the group `kNotifPageInfo` under the host window 1. -/
def pageInfoArgs (m : String) : NotificationCreateArgs :=
  ⟨.host 1, kNotifPageInfo, false, 0, m, .empty⟩

/-- Arguments for a notification of the group `kNotifAdHoc` under the host window 1. -/
def adHocArgs (m : String) : NotificationCreateArgs :=
  ⟨.host 1, kNotifAdHoc, false, 2000, m, .empty⟩

/-- Arguments for a highlighted notification with a timeout. -/
def warningArgs (m : String) : NotificationCreateArgs :=
  ⟨.host 1, kNotifActionResponse, true, 2000, m, .empty⟩

/-- The sample environment at 288 DPI (a scaling of 300%). -/
def sampleEnv288 : Env := { sampleEnv with dpi := 288 }

/-- The horizontal position of a stacked notification of width `dx` in a
container of client rectangle `frame`: the left margin, or in right-to-left
mode the container width less the width, the margin and the scrollbar width. -/
def stackX (env : Env) (frame : Rect) (dx : Int) : Int :=
  if env.isRtl then frame.dx - dx - DpiScale env kTopLeftMargin - env.cxVScroll
  else DpiScale env kTopLeftMargin

/-- The vertical position of the `i`-th stacked notification: the top margin
plus, for each notification before it, its height and the padding. -/
def stackY (env : Env) (s : State) (wnds : List Nat) (i : Nat) : Int :=
  DpiScale env kTopLeftMargin
    + ((wnds.take i).map (fun v => (s.obj v).pos.dy + DpiScale env kPadding)).sum

/-- The notifications of the parent `P`, in registry order. -/
def notifsOf (s : State) (P : HWND) : List Nat :=
  s.gNotifs.filter (fun h => (s.obj h).parent == P)

/-- The Win32 message `WM_LBUTTONDOWN`. -/
def WM_LBUTTONDOWN : Nat := 0x0201

/-- The `LPARAM` of a mouse message at the client point `(x, y)`, for
non-negative coordinates below 32768: `MAKELPARAM(x, y)`. -/
def MAKELPARAM (x y : Int) : Int := y * 65536 + x

/-! ## Basic facts -/

theorem obj_eq_getElem {s : State} {h : Nat} (hlt : h < s.heap.length) :
    s.obj h = s.heap[h] := by
  simp [State.obj, List.getD_eq_getElem?_getD, List.getElem?_eq_getElem hlt]

theorem obj_of_ge {s : State} {h : Nat} (hge : s.heap.length ≤ h) :
    s.obj h = NotificationWnd.unallocated := by
  simp [State.obj, List.getD_eq_getElem?_getD, List.getElem?_eq_none hge]

theorem alive_lt {s : State} {h : Nat} (ha : (s.obj h).alive = true) :
    h < s.heap.length := by
  by_contra hc
  rw [obj_of_ge (Nat.le_of_not_lt hc)] at ha
  simp [NotificationWnd.unallocated] at ha

theorem obj_modify (s : State) (h : Nat) (f : NotificationWnd → NotificationWnd) (k : Nat) :
    (s.modify h f).obj k
      = if k = h ∧ h < s.heap.length then f (s.obj h) else s.obj k := by
  simp only [State.obj, State.modify, List.getD_eq_getElem?_getD, List.getElem?_set]
  by_cases hk : h = k
  · subst hk
    by_cases hl : h < s.heap.length
    · simp [hl]
    · simp [hl, List.getElem?_eq_none (Nat.le_of_not_lt hl)]
  · have : ¬ (k = h) := fun e => hk e.symm
    simp [hk, this]

theorem length_modify (s : State) (h : Nat) (f : NotificationWnd → NotificationWnd) :
    (s.modify h f).heap.length = s.heap.length := by
  simp [State.modify]

theorem obj_modify_core (s : State) (h : Nat) (f : NotificationWnd → NotificationWnd)
    (hf : ∀ w, (f w).core = w.core) (k : Nat) :
    ((s.modify h f).obj k).core = (s.obj k).core := by
  rw [obj_modify]
  split
  · next hc => rw [hf, hc.1]
  · rfl

theorem SameCore.mk' {s s' : State} (hl : s'.heap.length = s.heap.length)
    (hc : ∀ k, (s'.obj k).core = (s.obj k).core) (hg : s'.gNotifs = s.gNotifs)
    (ht : s'.tasks = s.tasks) (hd : s'.deleted = s.deleted) : SameCore s s' :=
  ⟨hl, fun k => by simp [hc], by simp [hg], ht, by simp [hd]⟩

theorem SameCore.core_eq {s s' : State} (h : SameCore s s') (k : Nat) :
    (s'.obj k).core = (s.obj k).core := by
  have := h.core k; simpa using this

theorem SameCore.gNotifs_eq {s s' : State} (h : SameCore s s') : s'.gNotifs = s.gNotifs := by
  have := h.gNotifs; simpa using this

theorem SameCore.deleted_eq {s s' : State} (h : SameCore s s') : s'.deleted = s.deleted := by
  have := h.deleted; simpa using this

theorem SameCore.core_refl (s : State) : SameCore s s :=
  SameCore.mk' rfl (fun _ => rfl) rfl rfl rfl

theorem Core.kill_kill (c : Core) : c.kill.kill = c.kill := rfl

theorem Killed.killed_trans {a b : List Nat} {s s' s'' : State} (h1 : Killed a s s')
    (h2 : Killed b s' s'') : Killed (a ++ b) s s'' := by
  refine ⟨h2.len.trans h1.len, fun k => ?_, ?_, h2.tasks.trans h1.tasks, ?_⟩
  · rw [h2.core, h1.core]
    by_cases ha : k ∈ a <;> by_cases hb : k ∈ b <;> simp [ha, hb, Core.kill_kill]
  · rw [h2.gNotifs, h1.gNotifs, List.filter_filter]
    congr 1
    funext k
    simp [not_or, Bool.and_comm]
  · rw [h2.deleted, h1.deleted, List.append_assoc]

theorem SameCore.core_trans {a b c : State} (h1 : SameCore a b) (h2 : SameCore b c) :
    SameCore a c := by
  have := Killed.killed_trans h1 h2
  simpa using this

theorem Killed.after_same {rs : List Nat} {a b c : State} (h1 : SameCore a b)
    (h2 : Killed rs b c) : Killed rs a c := by
  have := Killed.killed_trans h1 h2
  simpa using this

theorem Killed.before_same {rs : List Nat} {a b c : State} (h1 : Killed rs a b)
    (h2 : SameCore b c) : Killed rs a c := by
  have := Killed.killed_trans h1 h2
  simpa using this

theorem sameCore_modify (s : State) (h : Nat) (f : NotificationWnd → NotificationWnd)
    (hf : ∀ w, (f w).core = w.core) : SameCore s (s.modify h f) :=
  SameCore.mk' (length_modify s h f) (obj_modify_core s h f hf) rfl rfl rfl

theorem touch_obj (s : State) (h k : Nat) : (s.touch h).obj k = s.obj k := by
  unfold State.touch; split <;> rfl

theorem sameCore_touch (s : State) (h : Nat) : SameCore s (s.touch h) := by
  unfold State.touch; split
  · exact SameCore.core_refl s
  · exact SameCore.mk' rfl (fun _ => rfl) rfl rfl rfl

theorem touch_heap (s : State) (h : Nat) : (s.touch h).heap = s.heap := by
  unfold State.touch; split <;> rfl

theorem touchAll_heap (s : State) (hs : List Nat) : (s.touchAll hs).heap = s.heap := by
  induction hs generalizing s with
  | nil => rfl
  | cons a t ih => simp only [State.touchAll, List.foldl_cons] at ih ⊢; rw [ih, touch_heap]

theorem sameCore_touchAll (s : State) (hs : List Nat) : SameCore s (s.touchAll hs) := by
  induction hs generalizing s with
  | nil => exact SameCore.core_refl s
  | cons a t ih =>
    simp only [State.touchAll, List.foldl_cons] at ih ⊢
    exact (sameCore_touch s a).core_trans (ih _)

theorem touch_of_live {s : State} {h : Nat} (hl : (s.obj h).alive = true) : s.touch h = s := by
  simp [State.touch, State.isLive, hl]

theorem touchAll_of_live {s : State} {hs : List Nat} (hl : ∀ h ∈ hs, (s.obj h).alive = true) :
    s.touchAll hs = s := by
  induction hs with
  | nil => rfl
  | cons a t ih =>
    simp only [State.touchAll, List.foldl_cons]
    rw [touch_of_live (hl a (List.mem_cons_self _ _))]
    exact ih (fun h hh => hl h (List.mem_cons_of_mem _ hh))

/-! ## Frame conditions of the registry operations -/

theorem core_SetWindowXY (w : NotificationWnd) (x y : Int) :
    (w.SetWindowXY x y).core = w.core := by
  unfold NotificationWnd.SetWindowXY; split <;> rfl

theorem core_SetWindowSize (w : NotificationWnd) (dx dy : Int) :
    (w.SetWindowSize dx dy).core = w.core := by
  unfold NotificationWnd.SetWindowSize; split <;> rfl

theorem core_HwndSetText (w : NotificationWnd) (msg : String) :
    (w.HwndSetText msg).core = w.core := by
  unfold NotificationWnd.HwndSetText; split <;> rfl

theorem core_SetTimer (w : NotificationWnd) (ms : Int) : (w.SetTimer ms).core = w.core := by
  unfold NotificationWnd.SetTimer; split <;> rfl

theorem sameCore_SetWindowPos (hwnd : HWND) (x y : Int) (s : State) :
    SameCore s (SetWindowPos hwnd x y s) := by
  cases hwnd with
  | null => exact SameCore.core_refl s
  | host n => exact SameCore.core_refl s
  | notif h =>
    exact sameCore_modify s h (fun w => w.SetWindowXY x y) (fun w => core_SetWindowXY w x y)

theorem sameCore_relayoutLoop (env : Env) (frame : Rect) (m p : Int) (wnds : List Nat)
    (y : Int) (s : State) : SameCore s (relayoutLoop env frame m p wnds y s) := by
  induction wnds generalizing y s with
  | nil => exact SameCore.core_refl s
  | cons a t ih =>
    simp only [relayoutLoop]
    exact ((sameCore_touch s a).core_trans (sameCore_SetWindowPos _ _ _ _)).core_trans (ih _ _)

theorem sameCore_GetForHwnd (env : Env) (hwnd : HWND) (s : State) :
    SameCore s (GetForHwnd env hwnd s).2 := sameCore_touchAll s _

theorem sameCore_Relayout (env : Env) (hwnd : HWND) (s : State) :
    SameCore s (RelayoutNotifications env hwnd s) := by
  unfold RelayoutNotifications
  simp only
  split
  · exact sameCore_GetForHwnd env _ s
  · exact ((sameCore_GetForHwnd env _ s).core_trans (sameCore_touch _ _)).core_trans
      (sameCore_relayoutLoop _ _ _ _ _ _ _)

theorem killed_delete (s : State) (wnd : Nat) (h : wnd ∉ s.gNotifs) :
    Killed [wnd] s (s.delete wnd) := by
  have ht := sameCore_touch s wnd
  refine ⟨?_, fun k => ?_, ?_, ?_, ?_⟩
  · simp [State.delete, length_modify, ht.len]
  · have e : (s.delete wnd).obj k
        = ((s.touch wnd).modify wnd (fun w => { w with alive := false })).obj k := rfl
    rw [e, obj_modify, touch_obj, touch_obj, touch_heap]
    by_cases hk : k = wnd
    · subst hk
      by_cases hl : k < s.heap.length
      · simp [hl, Core.kill, NotificationWnd.core]
      · simp [hl, obj_of_ge (Nat.le_of_not_lt hl), Core.kill, NotificationWnd.core,
          NotificationWnd.unallocated]
    · simp [hk]
  · show (s.touch wnd).gNotifs = _
    rw [ht.gNotifs_eq]
    symm
    rw [List.filter_eq_self]
    intro a ha
    have : a ≠ wnd := fun e => h (e ▸ ha)
    simp [this]
  · exact ht.tasks
  · show (s.touch wnd).deleted ++ [wnd] = _
    rw [ht.deleted_eq]

theorem killed_NotifsRemoveNotification (env : Env) (s : State) (wnd : Nat)
    (hm : wnd ∈ s.gNotifs) (hn : s.gNotifs.Nodup) :
    Killed [wnd] s (NotifsRemoveNotification env wnd s) := by
  unfold NotifsRemoveNotification
  rw [if_pos hm]
  simp only
  have h1 : SameCore { s with gNotifs := s.gNotifs.erase wnd }
      (RelayoutNotifications env
        ((State.touch { s with gNotifs := s.gNotifs.erase wnd } wnd).obj wnd).hwnd
        (State.touch { s with gNotifs := s.gNotifs.erase wnd } wnd)) :=
    (sameCore_touch _ _).core_trans (sameCore_Relayout _ _ _)
  have hnot : wnd ∉ (RelayoutNotifications env
        ((State.touch { s with gNotifs := s.gNotifs.erase wnd } wnd).obj wnd).hwnd
        (State.touch { s with gNotifs := s.gNotifs.erase wnd } wnd)).gNotifs := by
    rw [h1.gNotifs_eq]
    exact fun hc => (List.Nodup.mem_erase_iff hn).1 hc |>.1 rfl
  have h2 := Killed.after_same h1 (killed_delete _ wnd hnot)
  refine ⟨h2.len, h2.core, ?_, h2.tasks, h2.deleted⟩
  rw [h2.gNotifs]
  show List.filter _ (s.gNotifs.erase wnd) = _
  rw [List.Nodup.erase_eq_filter hn, List.filter_filter]
  congr 1
  funext k
  by_cases hk : k = wnd <;> simp [hk]

theorem NotifsRemoveNotification_absent (env : Env) (s : State) (wnd : Nat)
    (hm : wnd ∉ s.gNotifs) : NotifsRemoveNotification env wnd s = s := by
  unfold NotifsRemoveNotification
  rw [if_neg hm]

theorem killed_foldl_remove (env : Env) (rs : List Nat) (s : State)
    (hsub : ∀ r ∈ rs, r ∈ s.gNotifs) (hrs : rs.Nodup) (hn : s.gNotifs.Nodup) :
    Killed rs s (rs.foldl (fun s wnd => NotifsRemoveNotification env wnd s) s) := by
  induction rs generalizing s with
  | nil => exact SameCore.core_refl s
  | cons a t ih =>
    simp only [List.foldl_cons]
    have ha := killed_NotifsRemoveNotification env s a (hsub a (List.mem_cons_self _ _)) hn
    have hnd := List.nodup_cons.1 hrs
    have hg : (NotifsRemoveNotification env a s).gNotifs.Nodup := by
      rw [ha.gNotifs]; exact hn.filter _
    have hsub2 : ∀ r ∈ t, r ∈ (NotifsRemoveNotification env a s).gNotifs := by
      intro r hr
      rw [ha.gNotifs, List.mem_filter]
      refine ⟨hsub r (List.mem_cons_of_mem _ hr), ?_⟩
      have : r ≠ a := fun e => hnd.1 (e ▸ hr)
      simp [this]
    have := Killed.killed_trans ha (ih _ hsub2 hnd.2 hg)
    simpa using this

/-! ## The registry invariant is kept by every operation -/

theorem Killed.alive_after {rs : List Nat} {s s' : State} (h : Killed rs s s') (k : Nat) :
    (s'.obj k).alive = if k ∈ rs then false else (s.obj k).alive := by
  have := congrArg Core.alive (h.core k)
  by_cases hk : k ∈ rs <;> simpa [hk, NotificationWnd.core, Core.kill] using this

theorem Killed.hwnd_after {rs : List Nat} {s s' : State} (h : Killed rs s s') (k : Nat) :
    (s'.obj k).hwnd = (s.obj k).hwnd := by
  have := congrArg Core.hwnd (h.core k)
  by_cases hk : k ∈ rs <;> simpa [hk, NotificationWnd.core, Core.kill] using this

theorem Killed.parent_after {rs : List Nat} {s s' : State} (h : Killed rs s s') (k : Nat) :
    (s'.obj k).parent = (s.obj k).parent := by
  have := congrArg Core.parent (h.core k)
  by_cases hk : k ∈ rs <;> simpa [hk, NotificationWnd.core, Core.kill] using this

theorem Killed.groupId_after {rs : List Nat} {s s' : State} (h : Killed rs s s') (k : Nat) :
    (s'.obj k).groupId = (s.obj k).groupId := by
  have := congrArg Core.groupId (h.core k)
  by_cases hk : k ∈ rs <;> simpa [hk, NotificationWnd.core, Core.kill] using this

theorem Killed.cb_after {rs : List Nat} {s s' : State} (h : Killed rs s s') (k : Nat) :
    (s'.obj k).wndRemovedCb = (s.obj k).wndRemovedCb := by
  have := congrArg Core.cb (h.core k)
  by_cases hk : k ∈ rs <;> simpa [hk, NotificationWnd.core, Core.kill] using this

theorem Killed.mem_gNotifs {rs : List Nat} {s s' : State} (h : Killed rs s s') (k : Nat) :
    k ∈ s'.gNotifs ↔ k ∈ s.gNotifs ∧ k ∉ rs := by
  rw [h.gNotifs, List.mem_filter]; simp

theorem InvX.killed {d : Bool} {extra rs : List Nat} {s s' : State} (hi : InvX d extra s)
    (hk : Killed rs s s') (hlive : ∀ r ∈ rs, (s.obj r).alive = true) (hrs : rs.Nodup) :
    InvX d (extra.filter (fun k => decide (k ∉ rs))) s' := by
  refine ⟨?_, ?_, ?_, ?_, ?_, ?_, ?_, ?_, ?_⟩
  · rw [hk.gNotifs]; exact hi.nodup.filter _
  · intro h hh
    obtain ⟨h1, h2⟩ := (hk.mem_gNotifs h).1 hh
    rw [hk.alive_after, hk.hwnd_after, if_neg h2]
    exact hi.reg_live h h1
  · intro h hh
    rw [hk.alive_after] at hh
    by_cases hr : h ∈ rs
    · simp [hr] at hh
    · rw [if_neg hr] at hh
      rcases hi.live_reg h hh with h1 | h1
      · exact Or.inl ((hk.mem_gNotifs h).2 ⟨h1, hr⟩)
      · exact Or.inr (List.mem_filter.2 ⟨h1, by simp [hr]⟩)
  · intro h hh
    rw [hk.cb_after]
    exact hi.cb_valid h (hk.len ▸ hh)
  · intro hd h hh
    rw [hk.cb_after]
    exact hi.cb_default hd h (hk.len ▸ hh)
  · intro t ht
    exact hi.tasks_remove t (hk.tasks ▸ ht)
  · intro h
    rw [hk.deleted, List.mem_append, hk.len, hk.alive_after]
    constructor
    · rintro (h1 | h1)
      · have := (hi.deleted_iff h).1 h1
        refine ⟨this.1, ?_⟩
        split
        · rfl
        · exact this.2
      · exact ⟨alive_lt (hlive h h1), by simp [h1]⟩
    · rintro ⟨h1, h2⟩
      by_cases hr : h ∈ rs
      · exact Or.inr hr
      · rw [if_neg hr] at h2
        exact Or.inl ((hi.deleted_iff h).2 ⟨h1, h2⟩)
  · rw [hk.deleted]
    refine List.Nodup.append hi.deleted_nodup hrs ?_
    intro a ha hb
    have h1 := ((hi.deleted_iff a).1 ha).2
    rw [hlive a hb] at h1
    exact Bool.noConfusion h1
  · intro a ha b hb
    obtain ⟨ha1, _⟩ := (hk.mem_gNotifs a).1 ha
    obtain ⟨hb1, _⟩ := (hk.mem_gNotifs b).1 hb
    rw [hk.parent_after, hk.parent_after, hk.groupId_after, hk.groupId_after]
    exact hi.group_unique a ha1 b hb1

theorem InvX.sameCore {d : Bool} {extra : List Nat} {s s' : State} (hi : InvX d extra s)
    (hk : SameCore s s') : InvX d extra s' := by
  have := hi.killed hk (by simp) List.nodup_nil
  simpa using this

theorem InvX.reg_lt {d : Bool} {extra : List Nat} {s : State} (hi : InvX d extra s) {h : Nat}
    (hh : h ∈ s.gNotifs) : h < s.heap.length :=
  alive_lt (hi.reg_live h hh).1

theorem InvX.hasWindow {d : Bool} {extra : List Nat} {s : State} (hi : InvX d extra s) {h : Nat}
    (hh : h ∈ s.gNotifs) : (s.obj h).hasWindow = true := by
  obtain ⟨h1, h2⟩ := hi.reg_live h hh
  simp [NotificationWnd.hasWindow, h1, h2]

theorem InvX.parent_eq {d : Bool} {extra : List Nat} {s : State} (hi : InvX d extra s) (env : Env) {h : Nat}
    (hh : h ∈ s.gNotifs) : HwndGetParent env s (s.obj h).hwnd = (s.obj h).parent := by
  rw [(hi.reg_live h hh).2]
  simp [HwndGetParent, hi.hasWindow hh]

theorem InvX.GetForHwnd_fst {d : Bool} {extra : List Nat} {s : State} (hi : InvX d extra s) (env : Env)
    (hwnd : HWND) :
    (GetForHwnd env hwnd s).1 = s.gNotifs.filter (fun h => (s.obj h).parent == hwnd) := by
  unfold GetForHwnd
  simp only
  apply List.filter_congr
  intro h hh
  rw [hi.parent_eq env hh]

theorem InvX.touchAll_reg {d : Bool} {extra : List Nat} {s : State} (hi : InvX d extra s) {hs : List Nat}
    (hsub : ∀ h ∈ hs, h ∈ s.gNotifs) : s.touchAll hs = s :=
  touchAll_of_live (fun h hh => (hi.reg_live h (hsub h hh)).1)

theorem InvX.GetForHwnd_snd {d : Bool} {extra : List Nat} {s : State} (hi : InvX d extra s) (env : Env)
    (hwnd : HWND) : (GetForHwnd env hwnd s).2 = s :=
  hi.touchAll_reg (fun _ hh => hh)

theorem Added.alive_added {wnd : Nat} {g : Kind} {s s' : State} (h : Added wnd g s s')
    (k : Nat) : (s'.obj k).alive = (s.obj k).alive := by
  have := congrArg Core.alive (h.core k)
  by_cases hk : k = wnd <;> simpa [hk, NotificationWnd.core] using this

theorem Added.hwnd_added {wnd : Nat} {g : Kind} {s s' : State} (h : Added wnd g s s')
    (k : Nat) : (s'.obj k).hwnd = (s.obj k).hwnd := by
  have := congrArg Core.hwnd (h.core k)
  by_cases hk : k = wnd <;> simpa [hk, NotificationWnd.core] using this

theorem Added.parent_added {wnd : Nat} {g : Kind} {s s' : State} (h : Added wnd g s s')
    (k : Nat) : (s'.obj k).parent = (s.obj k).parent := by
  have := congrArg Core.parent (h.core k)
  by_cases hk : k = wnd <;> simpa [hk, NotificationWnd.core] using this

theorem Added.cb_added {wnd : Nat} {g : Kind} {s s' : State} (h : Added wnd g s s')
    (k : Nat) : (s'.obj k).wndRemovedCb = (s.obj k).wndRemovedCb := by
  have := congrArg Core.cb (h.core k)
  by_cases hk : k = wnd <;> simpa [hk, NotificationWnd.core] using this

theorem Added.groupId_added {wnd : Nat} {g : Kind} {s s' : State} (h : Added wnd g s s')
    (k : Nat) : (s'.obj k).groupId = if k = wnd then g else (s.obj k).groupId := by
  have := congrArg Core.groupId (h.core k)
  by_cases hk : k = wnd <;> simpa [hk, NotificationWnd.core] using this

theorem Added.added_before_same {wnd : Nat} {g : Kind} {a b c : State} (h1 : Added wnd g a b)
    (h2 : SameCore b c) : Added wnd g a c :=
  ⟨h2.len.trans h1.len, fun k => (h2.core_eq k).trans (h1.core k),
   h2.gNotifs_eq.trans h1.gNotifs, h2.tasks.trans h1.tasks, h2.deleted_eq.trans h1.deleted⟩

theorem Added.added_after_same {wnd : Nat} {g : Kind} {a b c : State} (h1 : SameCore a b)
    (h2 : Added wnd g b c) : Added wnd g a c := by
  refine ⟨h2.len.trans h1.len, fun k => ?_, ?_, h2.tasks.trans h1.tasks,
    h2.deleted.trans h1.deleted_eq⟩
  · rw [h2.core, h1.core_eq]
  · rw [h2.gNotifs, h1.gNotifs_eq]

theorem added_base (s : State) (wnd : Nat) (g : Kind) (hlt : wnd < s.heap.length) :
    Added wnd g s
      { s.modify wnd (fun w => { w with groupId := g }) with gNotifs := s.gNotifs ++ [wnd] } := by
  refine ⟨by simp [State.modify], fun k => ?_, rfl, rfl, rfl⟩
  have e : (State.obj { s.modify wnd (fun w => { w with groupId := g }) with
      gNotifs := s.gNotifs ++ [wnd] } k)
      = (s.modify wnd (fun w => { w with groupId := g })).obj k := rfl
  rw [e, obj_modify]
  by_cases hk : k = wnd
  · subst hk; simp [hlt, NotificationWnd.core]
  · simp [hk]

theorem InvX.added {d : Bool} {extra : List Nat} {wnd : Nat} {g : Kind} {s s' : State}
    (hi : InvX d extra s) (ha : Added wnd g s s') (hal : (s.obj wnd).alive = true)
    (hw : (s.obj wnd).hwnd = .notif wnd) (hnr : wnd ∉ s.gNotifs)
    (hfree : (g = none ∨ g = kNotifAdHoc) ∨
      ∀ h ∈ s.gNotifs, ¬ ((s.obj h).groupId = g ∧ (s.obj h).parent = (s.obj wnd).parent)) :
    InvX d (extra.filter (fun k => decide (k ≠ wnd))) s' := by
  have hmem : ∀ k, k ∈ s'.gNotifs ↔ k ∈ s.gNotifs ∨ k = wnd := by
    intro k; rw [ha.gNotifs]; simp
  refine ⟨?_, ?_, ?_, ?_, ?_, ?_, ?_, ?_, ?_⟩
  · rw [ha.gNotifs]
    exact List.Nodup.append hi.nodup (List.nodup_singleton _)
      (by intro a h1 h2; simp at h2; exact hnr (h2 ▸ h1))
  · intro h hh
    rw [ha.alive_added, ha.hwnd_added]
    rcases (hmem h).1 hh with h1 | h1
    · exact hi.reg_live h h1
    · subst h1; exact ⟨hal, hw⟩
  · intro h hh
    rw [ha.alive_added] at hh
    by_cases hk : h = wnd
    · exact Or.inl ((hmem h).2 (Or.inr hk))
    · rcases hi.live_reg h hh with h1 | h1
      · exact Or.inl ((hmem h).2 (Or.inl h1))
      · exact Or.inr (List.mem_filter.2 ⟨h1, by simp [hk]⟩)
  · intro h hh
    rw [ha.cb_added]
    exact hi.cb_valid h (ha.len ▸ hh)
  · intro hd h hh
    rw [ha.cb_added]
    exact hi.cb_default hd h (ha.len ▸ hh)
  · intro t ht
    exact hi.tasks_remove t (ha.tasks ▸ ht)
  · intro h
    rw [ha.deleted, ha.len, ha.alive_added]
    exact hi.deleted_iff h
  · rw [ha.deleted]; exact hi.deleted_nodup
  · intro a haa b hbb hp hg hn1 hn2
    rw [ha.parent_added, ha.parent_added] at hp
    rw [ha.groupId_added] at hn1 hn2
    rw [ha.groupId_added, ha.groupId_added] at hg
    rcases (hmem a).1 haa with h1 | h1 <;> rcases (hmem b).1 hbb with h2 | h2
    · have e1 : a ≠ wnd := fun e => hnr (e ▸ h1)
      have e2 : b ≠ wnd := fun e => hnr (e ▸ h2)
      rw [if_neg e1] at hn1 hn2 hg
      rw [if_neg e2] at hg
      exact hi.group_unique a h1 b h2 hp hg hn1 hn2
    · exfalso
      have e1 : a ≠ wnd := fun e => hnr (e ▸ h1)
      subst h2
      rw [if_neg e1] at hn1 hn2 hg
      rw [if_pos rfl] at hg
      rcases hfree with (h3 | h3) | h3
      · exact hn1 (hg.trans h3)
      · exact hn2 (hg.trans h3)
      · exact h3 a h1 ⟨hg, hp⟩
    · exfalso
      have e2 : b ≠ wnd := fun e => hnr (e ▸ h2)
      subst h1
      rw [if_pos rfl] at hn1 hn2 hg
      rw [if_neg e2] at hg
      rcases hfree with (h3 | h3) | h3
      · exact hn1 h3
      · exact hn2 h3
      · exact h3 b h2 ⟨hg.symm, hp.symm⟩
    · rw [h1, h2]

theorem InvX.set_tasks {d : Bool} {extra : List Nat} {s : State} (hi : InvX d extra s)
    (ts : List UITask) (hts : ∀ t ∈ ts, ∃ h, t = UITask.NotifRemove h) :
    InvX d extra { s with tasks := ts } :=
  ⟨hi.nodup, hi.reg_live, hi.live_reg, hi.cb_valid, hi.cb_default, hts, hi.deleted_iff,
   hi.deleted_nodup, hi.group_unique⟩

theorem InvX.removeForGroup {d : Bool} {extra : List Nat} {s : State} (hi : InvX d extra s)
    (env : Env)
    (wnds : List Nat) (g : Kind) (hsub : ∀ h ∈ wnds, h ∈ s.gNotifs) (hnd : wnds.Nodup) :
    (NotifsRemoveForGroup env wnds g s).1
        = (wnds.filter (fun wnd => (s.obj wnd).groupId == g)).length ∧
    Killed (wnds.filter (fun wnd => (s.obj wnd).groupId == g)) s
      (NotifsRemoveForGroup env wnds g s).2 := by
  unfold NotifsRemoveForGroup
  simp only
  rw [hi.touchAll_reg hsub]
  refine ⟨trivial, killed_foldl_remove env _ s ?_ (hnd.filter _) hi.nodup⟩
  intro r hr
  exact hsub r (List.mem_filter.1 hr).1

theorem core_Layout (env : Env) (msg : String) (w : NotificationWnd) :
    (w.Layout env msg).core = w.core := by
  unfold NotificationWnd.Layout
  simp only [apply_ite NotificationWnd.core, core_SetWindowXY, core_SetWindowSize]
  simp [NotificationWnd.core]

theorem core_UpdateMessage (env : Env) (msg : String) (t : Int) (hl : Bool)
    (w : NotificationWnd) : (w.UpdateMessage env msg t hl).core = w.core := by
  unfold NotificationWnd.UpdateMessage
  simp only
  split
  · rw [core_SetTimer, core_Layout]
    exact core_HwndSetText w msg
  · rw [core_Layout]
    exact core_HwndSetText w msg

theorem core_Create (env : Env) (args : NotificationCreateArgs) (created : Bool) (self : Nat)
    (w : NotificationWnd) :
    (w.Create env args created self).core
      = ⟨w.alive, if created then .notif self else w.hwnd,
         if created then args.hwndParent else w.parent, w.groupId,
         if args.onRemoved.IsValid then args.onRemoved else .notifsRemoveNotification⟩ := by
  unfold NotificationWnd.Create
  simp only [apply_ite NotificationWnd.core, core_SetTimer, core_Layout]
  cases created <;> simp [NotificationWnd.core]

theorem allocState_obj_new (env : Env) (args : NotificationCreateArgs) (created : Bool)
    (s : State) :
    (allocState env args created s).obj s.heap.length
      = (NotificationWnd.fresh env).Create env args created s.heap.length := by
  simp [allocState, State.obj, List.getD_eq_getElem?_getD]

theorem allocState_obj_old (env : Env) (args : NotificationCreateArgs) (created : Bool)
    (s : State) {k : Nat} (hk : k < s.heap.length) :
    (allocState env args created s).obj k = s.obj k := by
  simp [allocState, State.obj, List.getD_eq_getElem?_getD, List.getElem?_append_left hk]

theorem ShowNotification_eq (env : Env) (args : NotificationCreateArgs) (created : Bool)
    (s : State) :
    ShowNotification env args created s
      = if created then
          (some s.heap.length, NotifsAdd env s.heap.length args.groupId (allocState env args created s))
        else (none, (allocState env args created s).delete s.heap.length) := by
  have e : State.modify { s with heap := s.heap ++ [NotificationWnd.fresh env] } s.heap.length
      (fun w => w.Create env args created s.heap.length) = allocState env args created s := by
    simp [State.modify, allocState, State.obj, List.getD_eq_getElem?_getD]
  unfold ShowNotification
  simp only
  rw [e, allocState_obj_new]
  have hc := congrArg Core.hwnd (core_Create env args created s.heap.length (NotificationWnd.fresh env))
  simp only [NotificationWnd.core] at hc
  rw [hc]
  cases created <;> simp [NotificationWnd.fresh]

theorem allocState_new_core (env : Env) (args : NotificationCreateArgs) (created : Bool)
    (s : State) :
    ((allocState env args created s).obj s.heap.length).core
      = ⟨true, if created then .notif s.heap.length else .null,
         if created then args.hwndParent else .null, none,
         if args.onRemoved.IsValid then args.onRemoved else .notifsRemoveNotification⟩ := by
  rw [allocState_obj_new, core_Create]
  rfl

theorem allocState_inv (env : Env) (args : NotificationCreateArgs) (created : Bool)
    {d : Bool} {s : State} (hi : InvX d [] s) (hd : d = true → args.onRemoved.IsValid = false) :
    InvX d [s.heap.length] (allocState env args created s) := by
  have hlen : (allocState env args created s).heap.length = s.heap.length + 1 := by
    simp [allocState]
  have hnew := allocState_new_core env args created s
  have hold : ∀ h ∈ s.gNotifs, (allocState env args created s).obj h = s.obj h :=
    fun h hh => allocState_obj_old env args created s (hi.reg_lt hh)
  refine ⟨hi.nodup, ?_, ?_, ?_, ?_, hi.tasks_remove, ?_, hi.deleted_nodup, ?_⟩
  · intro h hh
    have hh' : h ∈ s.gNotifs := hh
    rw [hold h hh']
    exact hi.reg_live h hh'
  · intro h hh
    have hlt := alive_lt hh
    rw [hlen] at hlt
    by_cases hk : h < s.heap.length
    · rw [allocState_obj_old env args created s hk] at hh
      rcases hi.live_reg h hh with h1 | h1
      · exact Or.inl h1
      · simp at h1
    · have : h = s.heap.length := by omega
      exact Or.inr (by simp [this])
  · intro h hlt
    rw [hlen] at hlt
    by_cases hk : h < s.heap.length
    · rw [allocState_obj_old env args created s hk]
      exact hi.cb_valid h hk
    · have : h = s.heap.length := by omega
      subst this
      have := congrArg Core.cb hnew
      simp only [NotificationWnd.core] at this
      rw [this]
      cases hv : args.onRemoved with
      | empty => simp [NotificationWndRemoved.IsValid]
      | notifsRemoveNotification => simp [NotificationWndRemoved.IsValid]
      | host n => simp [NotificationWndRemoved.IsValid]
  · intro hdt h hlt
    rw [hlen] at hlt
    by_cases hk : h < s.heap.length
    · rw [allocState_obj_old env args created s hk]
      exact hi.cb_default hdt h hk
    · have : h = s.heap.length := by omega
      subst this
      have := congrArg Core.cb hnew
      simp only [NotificationWnd.core] at this
      rw [this, hd hdt]
      simp
  · intro h
    rw [hlen]
    show h ∈ s.deleted ↔ _
    rw [hi.deleted_iff h]
    constructor
    · rintro ⟨h1, h2⟩
      rw [allocState_obj_old env args created s h1]
      exact ⟨by omega, h2⟩
    · rintro ⟨h1, h2⟩
      by_cases hk : h < s.heap.length
      · rw [allocState_obj_old env args created s hk] at h2
        exact ⟨hk, h2⟩
      · have : h = s.heap.length := by omega
        subst this
        have := congrArg Core.alive hnew
        simp only [NotificationWnd.core] at this
        rw [this] at h2
        exact Bool.noConfusion h2
  · intro a ha b hb
    have ha' : a ∈ s.gNotifs := ha
    have hb' : b ∈ s.gNotifs := hb
    rw [hold a ha', hold b hb']
    exact hi.group_unique a ha' b hb'

theorem allocState_not_reg (env : Env) (args : NotificationCreateArgs) (created : Bool)
    {d : Bool} {s : State} (hi : InvX d [] s) : s.heap.length ∉ (allocState env args created s).gNotifs := by
  intro hc
  have hc' : s.heap.length ∈ s.gNotifs := hc
  exact Nat.lt_irrefl _ (hi.reg_lt hc')

theorem NotifsAdd_spec (env : Env) {d : Bool} {extra : List Nat} {s : State} (wnd : Nat)
    (g : Kind) (hi : InvX d extra s) (hal : (s.obj wnd).alive = true) (hw : (s.obj wnd).hwnd = .notif wnd) :
    ∃ s1, Killed (replaced s wnd g) s s1 ∧ Added wnd g s1 (NotifsAdd env wnd g s) := by
  have hhas : (s.obj wnd).hasWindow = true := by simp [NotificationWnd.hasWindow, hal, hw]
  have hpar : HwndGetParent env s (s.obj wnd).hwnd = (s.obj wnd).parent := by
    rw [hw]; simp [HwndGetParent, hhas]
  have hget : GetForSameHwnd env wnd s
      = (s.gNotifs.filter (fun h => (s.obj h).parent == (s.obj wnd).parent), s) := by
    unfold GetForSameHwnd
    simp only
    rw [touch_of_live hal, hpar]
    exact Prod.ext (hi.GetForHwnd_fst env _) (hi.GetForHwnd_snd env _)
  have hlt := alive_lt hal
  have hadd : ∀ s1 : State, s1.heap.length = s.heap.length →
      Added wnd g s1 (RelayoutNotifications env
        ((State.touch { (s1.touch wnd).modify wnd (fun w => { w with groupId := g }) with
            gNotifs := ((s1.touch wnd).modify wnd (fun w => { w with groupId := g })).gNotifs ++ [wnd] }
          wnd).obj wnd).hwnd
        (State.touch { (s1.touch wnd).modify wnd (fun w => { w with groupId := g }) with
            gNotifs := ((s1.touch wnd).modify wnd (fun w => { w with groupId := g })).gNotifs ++ [wnd] }
          wnd)) := by
    intro s1 hl
    have h1 := sameCore_touch s1 wnd
    have h2 := added_base (s1.touch wnd) wnd g (by rw [h1.len, hl]; exact hlt)
    exact Added.added_after_same h1
      (h2.added_before_same ((sameCore_touch _ _).core_trans (sameCore_Relayout _ _ _)))
  unfold NotifsAdd
  rw [hget]
  simp only [NotifsAddTo]
  by_cases hskip : g = none ∨ g = kNotifAdHoc
  · refine ⟨s, ?_, ?_⟩
    · rw [replaced, if_pos hskip]; exact SameCore.core_refl s
    · have hb : (g == none || g == kNotifAdHoc) = true := by
        rcases hskip with h | h <;> simp [h]
      simp only [hb, Bool.not_true, Bool.false_eq_true, if_false]
      exact hadd s rfl
  · have hb : (g == none || g == kNotifAdHoc) = false := by
      simp only [not_or] at hskip
      simp [hskip.1, hskip.2]
    simp only [hb, Bool.not_false, if_true]
    have hrm := hi.removeForGroup env
      (s.gNotifs.filter (fun h => (s.obj h).parent == (s.obj wnd).parent)) g
      (fun h hh => (List.mem_filter.1 hh).1) (hi.nodup.filter _)
    refine ⟨_, ?_, hadd _ hrm.2.len⟩
    have := hrm.2
    rw [List.filter_filter] at this
    rw [replaced, if_neg hskip]
    exact this

theorem replaced_live {d : Bool} {extra : List Nat} {s : State} (hi : InvX d extra s) (wnd : Nat) (g : Kind) :
    ∀ r ∈ replaced s wnd g, (s.obj r).alive = true := by
  intro r hr
  unfold replaced at hr
  split at hr
  · simp at hr
  · exact (hi.reg_live r (List.mem_filter.1 hr).1).1

theorem replaced_nodup {d : Bool} {extra : List Nat} {s : State} (hi : InvX d extra s) (wnd : Nat) (g : Kind) :
    (replaced s wnd g).Nodup := by
  unfold replaced
  split
  · exact List.nodup_nil
  · exact hi.nodup.filter _

theorem replaced_mem {s : State} {wnd : Nat} {g : Kind} (hg : ¬ (g = none ∨ g = kNotifAdHoc))
    (h : Nat) :
    h ∈ replaced s wnd g ↔
      h ∈ s.gNotifs ∧ (s.obj h).groupId = g ∧ (s.obj h).parent = (s.obj wnd).parent := by
  rw [replaced, if_neg hg, List.mem_filter]
  simp

theorem ShowNotification_inv (env : Env) (args : NotificationCreateArgs) (created : Bool)
    {d : Bool} {s : State} (hi : InvX d [] s) (hd : d = true → args.onRemoved.IsValid = false) :
    InvX d [] (ShowNotification env args created s).2 := by
  rw [ShowNotification_eq]
  have h1 := allocState_inv env args created hi hd
  have hnr := allocState_not_reg env args created hi
  have hc := allocState_new_core env args created s
  have hal : ((allocState env args created s).obj s.heap.length).alive = true :=
    congrArg Core.alive hc
  cases created with
  | false =>
    simp only [Bool.false_eq_true, if_false]
    have hk := killed_delete _ _ hnr
    have := h1.killed hk (by simpa using hal) (List.nodup_singleton _)
    simpa using this
  | true =>
    simp only [if_true]
    have hw : ((allocState env args true s).obj s.heap.length).hwnd = .notif s.heap.length :=
      congrArg Core.hwnd hc
    obtain ⟨s1, hk, ha⟩ := NotifsAdd_spec env s.heap.length args.groupId h1 hal hw
    have h2 := h1.killed hk (replaced_live h1 _ _) (replaced_nodup h1 _ _)
    have hnotin : s.heap.length ∉ replaced (allocState env args true s) s.heap.length args.groupId := by
      intro hm
      unfold replaced at hm
      split at hm
      · simp at hm
      · exact hnr (List.mem_filter.1 hm).1
    have hal1 : (s1.obj s.heap.length).alive = true := by
      rw [hk.alive_after, if_neg hnotin]; exact hal
    have hw1 : (s1.obj s.heap.length).hwnd = .notif s.heap.length := by
      rw [hk.hwnd_after]; exact hw
    have hnr1 : s.heap.length ∉ s1.gNotifs := fun hm => hnr ((hk.mem_gNotifs _).1 hm).1
    have hfree : (args.groupId = none ∨ args.groupId = kNotifAdHoc) ∨
        ∀ h ∈ s1.gNotifs, ¬ ((s1.obj h).groupId = args.groupId ∧
          (s1.obj h).parent = (s1.obj s.heap.length).parent) := by
      by_cases hg : args.groupId = none ∨ args.groupId = kNotifAdHoc
      · exact Or.inl hg
      · refine Or.inr (fun h hh hc2 => ?_)
        obtain ⟨hm1, hm2⟩ := (hk.mem_gNotifs h).1 hh
        apply hm2
        rw [replaced_mem hg]
        rw [hk.groupId_after, hk.parent_after, hk.parent_after] at hc2
        exact ⟨hm1, hc2⟩
    have := h2.added ha hal1 hw1 hnr1 hfree
    have e : List.filter (fun k => decide (k ≠ s.heap.length))
        (List.filter (fun k => decide (k ∉ replaced (allocState env args true s) s.heap.length
          args.groupId)) [s.heap.length]) = [] := by
      rw [List.filter_filter]
      simp
    rw [e] at this
    exact this

theorem NotifsRemoveNotification_inv (env : Env) (wnd : Nat) {d : Bool} {s : State}
    (hi : InvX d [] s) : InvX d [] (NotifsRemoveNotification env wnd s) := by
  by_cases hm : wnd ∈ s.gNotifs
  · have hk := killed_NotifsRemoveNotification env s wnd hm hi.nodup
    have := hi.killed hk (by simpa using (hi.reg_live wnd hm).1) (List.nodup_singleton _)
    simpa using this
  · rw [NotifsRemoveNotification_absent env s wnd hm]; exact hi

theorem RemoveNotificationsForGroup_inv (env : Env) (hwnd : HWND) (kind : Kind) {d : Bool}
    {s : State} (hi : InvX d [] s) :
    InvX d [] (RemoveNotificationsForGroup env hwnd kind s).2 := by
  unfold RemoveNotificationsForGroup
  simp only
  rw [hi.GetForHwnd_snd, hi.GetForHwnd_fst]
  have hrm := hi.removeForGroup env (s.gNotifs.filter (fun h => (s.obj h).parent == hwnd)) kind
    (fun h hh => (List.mem_filter.1 hh).1) (hi.nodup.filter _)
  have := hi.killed hrm.2
    (fun r hr => (hi.reg_live r (List.mem_filter.1 (List.mem_filter.1 hr).1).1).1)
    ((hi.nodup.filter _).filter _)
  simpa using this

theorem sameCore_UpdateNotificationProgress (env : Env) (wnd : Nat) (msg : String) (perc : Int)
    (s : State) : SameCore s (UpdateNotificationProgress env wnd msg perc s).2 := by
  unfold UpdateNotificationProgress
  split
  · exact SameCore.core_refl s
  · exact ((sameCore_touch s wnd).core_trans
      (sameCore_modify _ wnd (fun w => { w with progressPerc := perc }) (fun _ => rfl))).core_trans
      (sameCore_modify _ wnd (fun w => w.UpdateMessage env msg 0 false)
        (fun w => core_UpdateMessage env msg 0 false w))

theorem sameCore_NotificationUpdateMessage (env : Env) (wnd : Nat) (msg : String) (t : Int)
    (hl : Bool) (s : State) : SameCore s (NotificationUpdateMessage env wnd msg t hl s) :=
  (sameCore_touch s wnd).core_trans
    (sameCore_modify _ wnd (fun w => w.UpdateMessage env msg t hl)
      (fun w => core_UpdateMessage env msg t hl w))

theorem sameCore_GetNotificationForGroup (env : Env) (hwnd : HWND) (kind : Kind) (s : State) :
    SameCore s (GetNotificationForGroup env hwnd kind s).2 :=
  (sameCore_GetForHwnd env hwnd s).core_trans (sameCore_touchAll _ _)

theorem InvX.post {d : Bool} {extra : List Nat} {s : State} (hi : InvX d extra s) (wnd : Nat) :
    InvX d extra (s.post (.NotifRemove wnd)) := by
  refine hi.set_tasks _ ?_
  intro t ht
  rcases List.mem_append.1 ht with h | h
  · exact hi.tasks_remove t h
  · exact ⟨wnd, by simpa using h⟩

theorem InvX.valid_of_hasWindow {d : Bool} {extra : List Nat} {s : State} (hi : InvX d extra s) {wnd : Nat}
    (hw : (s.obj wnd).hasWindow = true) : (s.obj wnd).wndRemovedCb.IsValid = true := by
  have hal : (s.obj wnd).alive = true := by
    simp [NotificationWnd.hasWindow] at hw; exact hw.1
  have := hi.cb_valid wnd (alive_lt hal)
  cases h : (s.obj wnd).wndRemovedCb <;> simp_all [NotificationWndRemoved.IsValid]

theorem OnTimer_eq {d : Bool} {extra : List Nat} {s : State} (hi : InvX d extra s) {wnd : Nat}
    (hw : (s.obj wnd).hasWindow = true) : OnTimer wnd s = s.post (.NotifRemove wnd) := by
  have hal : (s.obj wnd).alive = true := by
    simp [NotificationWnd.hasWindow] at hw; exact hw.1
  unfold OnTimer
  simp only
  rw [touch_of_live hal, if_pos (hi.valid_of_hasWindow hw)]

theorem WndProc_cases {d : Bool} {extra : List Nat} {s : State} (hi : InvX d extra s) {wnd : Nat}
    (hw : (s.obj wnd).hasWindow = true) (msg : Nat) (lp : Int) (cursor : Point) :
    (WndProc wnd msg lp cursor s).2 = s ∨
    (WndProc wnd msg lp cursor s).2 = s.post (.NotifRemove wnd) := by
  have hal : (s.obj wnd).alive = true := by
    simp [NotificationWnd.hasWindow] at hw; exact hw.1
  unfold WndProc
  simp only
  rw [touch_of_live hal]
  split_ifs <;> simp_all [hi.valid_of_hasWindow hw]

theorem execTask_inv (env : Env) (t : UITask) {d : Bool} {s : State} (hi : InvX d [] s)
    (ht : ∃ h, t = UITask.NotifRemove h) : InvX d [] (execTask env t s) := by
  obtain ⟨h, rfl⟩ := ht
  simp only [execTask, NotifRemove]
  have hs := hi.sameCore (sameCore_touch s h)
  split
  · exact NotifsRemoveNotification_inv env h hs
  · exact hs
  · exact hs

theorem runTask_inv (env : Env) {d : Bool} {s : State} (hi : InvX d [] s) :
    InvX d [] (runTask env s) := by
  unfold runTask
  split
  · exact hi
  · next t rest heq =>
    have hsub : ∀ u ∈ rest, ∃ h, u = UITask.NotifRemove h :=
      fun u hu => hi.tasks_remove u (heq ▸ List.mem_cons_of_mem _ hu)
    exact execTask_inv env t (hi.set_tasks rest hsub)
      (hi.tasks_remove t (heq ▸ List.mem_cons_self _ _))

theorem step_inv (env : Env) (op : Op) {d : Bool} {s : State} (hi : InvX d [] s)
    (hop : d = true → op.defaultCb = true) : InvX d [] (step env op s) := by
  cases op with
  | showNotification args created =>
    exact ShowNotification_inv env args created hi
      (fun hd => by simpa [Op.defaultCb] using hop hd)
  | removeNotification wnd => exact NotifsRemoveNotification_inv env wnd hi
  | removeNotificationsForGroup hwnd kind => exact RemoveNotificationsForGroup_inv env hwnd kind hi
  | getNotificationForGroup hwnd kind =>
    exact hi.sameCore (sameCore_GetNotificationForGroup env hwnd kind s)
  | updateNotificationProgress wnd msg perc =>
    exact hi.sameCore (sameCore_UpdateNotificationProgress env wnd msg perc s)
  | notificationUpdateMessage wnd msg t hl =>
    exact hi.sameCore (sameCore_NotificationUpdateMessage env wnd msg t hl s)
  | relayoutNotifications hwnd => exact hi.sameCore (sameCore_Relayout env hwnd s)
  | getWndX wnd => exact hi.sameCore (sameCore_touch s wnd)
  | timer wnd =>
    simp only [step]
    split
    · next hc => rw [OnTimer_eq hi hc.1]; exact hi.post wnd
    · exact hi
  | message wnd msg lp cursor =>
    simp only [step]
    split
    · next hc =>
      rcases WndProc_cases hi hc msg lp cursor with h | h <;> rw [h]
      · exact hi
      · exact hi.post wnd
    · exact hi
  | runTask => exact runTask_inv env hi

theorem init_inv (d : Bool) : InvX d [] State.init := by
  refine ⟨List.nodup_nil, ?_, ?_, ?_, ?_, ?_, ?_, List.nodup_nil, ?_⟩ <;>
    simp [State.init, State.obj, NotificationWnd.unallocated]

theorem run_inv_from (ops : List (Env × Op)) {d : Bool} {s : State} (hi : InvX d [] s)
    (hops : d = true → ∀ eo ∈ ops, eo.2.defaultCb = true) : InvX d [] (run ops s) := by
  induction ops generalizing s with
  | nil => exact hi
  | cons a t ih =>
    exact ih (step_inv a.1 a.2 hi (fun hd => hops hd a (List.mem_cons_self _ _)))
      (fun hd eo he => hops hd eo (List.mem_cons_of_mem _ he))

theorem run_inv (ops : List (Env × Op)) : Inv (run ops State.init) :=
  run_inv_from ops (init_inv false) (fun hd => Bool.noConfusion hd)

theorem run_invD (ops : List (Env × Op)) (hops : ∀ eo ∈ ops, eo.2.defaultCb = true) :
    InvD (run ops State.init) :=
  run_inv_from ops (init_inv true) (fun _ => hops)

/-! ## Fields the registry operations never write -/

theorem SameLook.look_refl (s : State) : SameLook s s := fun _ => rfl

theorem SameLook.look_trans {a b c : State} (h1 : SameLook a b) (h2 : SameLook b c) :
    SameLook a c := fun k => (h2 k).trans (h1 k)

theorem sameLook_modify (s : State) (h : Nat) (f : NotificationWnd → NotificationWnd)
    (hf : ∀ w, (f w).look = w.look) : SameLook s (s.modify h f) := by
  intro k
  rw [obj_modify]
  split
  · next hc => rw [hf, hc.1]
  · rfl

theorem sameLook_touch (s : State) (h : Nat) : SameLook s (s.touch h) :=
  fun k => by rw [touch_obj]

theorem sameLook_touchAll (s : State) (hs : List Nat) : SameLook s (s.touchAll hs) := by
  induction hs generalizing s with
  | nil => exact SameLook.look_refl s
  | cons a t ih =>
    simp only [State.touchAll, List.foldl_cons] at ih ⊢
    exact (sameLook_touch s a).look_trans (ih _)

theorem look_SetWindowXY (w : NotificationWnd) (x y : Int) :
    (w.SetWindowXY x y).look = w.look := by
  unfold NotificationWnd.SetWindowXY; split <;> rfl

theorem sameLook_SetWindowPos (hwnd : HWND) (x y : Int) (s : State) :
    SameLook s (SetWindowPos hwnd x y s) := by
  cases hwnd with
  | null => exact SameLook.look_refl s
  | host n => exact SameLook.look_refl s
  | notif h =>
    exact sameLook_modify s h (fun w => w.SetWindowXY x y) (fun w => look_SetWindowXY w x y)

theorem sameLook_relayoutLoop (env : Env) (frame : Rect) (m p : Int) (wnds : List Nat)
    (y : Int) (s : State) : SameLook s (relayoutLoop env frame m p wnds y s) := by
  induction wnds generalizing y s with
  | nil => exact SameLook.look_refl s
  | cons a t ih =>
    simp only [relayoutLoop]
    exact ((sameLook_touch s a).look_trans (sameLook_SetWindowPos _ _ _ _)).look_trans (ih _ _)

theorem sameLook_Relayout (env : Env) (hwnd : HWND) (s : State) :
    SameLook s (RelayoutNotifications env hwnd s) := by
  unfold RelayoutNotifications
  simp only
  split
  · exact sameLook_touchAll s _
  · exact ((sameLook_touchAll s _).look_trans (sameLook_touch _ _)).look_trans
      (sameLook_relayoutLoop _ _ _ _ _ _ _)

theorem sameLook_delete (s : State) (wnd : Nat) : SameLook s (s.delete wnd) := by
  intro k
  have e : (s.delete wnd).obj k
      = ((s.touch wnd).modify wnd (fun w => { w with alive := false })).obj k := rfl
  rw [e]
  exact ((sameLook_touch s wnd).look_trans
    (sameLook_modify _ wnd (fun w => { w with alive := false }) (fun _ => rfl))) k

theorem sameLook_NotifsRemoveNotification (env : Env) (wnd : Nat) (s : State) :
    SameLook s (NotifsRemoveNotification env wnd s) := by
  unfold NotifsRemoveNotification
  split
  · simp only
    have h0 : SameLook s { s with gNotifs := s.gNotifs.erase wnd } := fun _ => rfl
    exact ((h0.look_trans (sameLook_touch _ _)).look_trans (sameLook_Relayout _ _ _)).look_trans
      (sameLook_delete _ _)
  · exact SameLook.look_refl s

theorem sameLook_foldl_remove (env : Env) (rs : List Nat) (s : State) :
    SameLook s (rs.foldl (fun s wnd => NotifsRemoveNotification env wnd s) s) := by
  induction rs generalizing s with
  | nil => exact SameLook.look_refl s
  | cons a t ih =>
    simp only [List.foldl_cons]
    exact (sameLook_NotifsRemoveNotification env a s).look_trans (ih _)

theorem sameLook_NotifsRemoveForGroup (env : Env) (wnds : List Nat) (g : Kind) (s : State) :
    SameLook s (NotifsRemoveForGroup env wnds g s).2 := by
  unfold NotifsRemoveForGroup
  simp only
  exact (sameLook_touchAll s wnds).look_trans (sameLook_foldl_remove env _ _)

theorem sameLook_setRegistry (s : State) (l : List Nat) :
    SameLook s { s with gNotifs := l } := fun _ => rfl

theorem sameLook_NotifsAddTo (env : Env) (wnds : List Nat) (wnd : Nat) (g : Kind) (s : State) :
    SameLook s (NotifsAddTo env wnds wnd g s) := by
  have h1 : SameLook s
      (if (!(g == none || g == kNotifAdHoc)) = true then (NotifsRemoveForGroup env wnds g s).2
       else s) := by
    split
    · exact sameLook_NotifsRemoveForGroup env wnds g s
    · exact SameLook.look_refl s
  unfold NotifsAddTo
  simp only
  revert h1
  generalize (if (!(g == none || g == kNotifAdHoc)) = true then
    (NotifsRemoveForGroup env wnds g s).2 else s) = s1
  intro h1
  have h2 := sameLook_touch s1 wnd
  have h3 := sameLook_modify (s1.touch wnd) wnd (fun w => { w with groupId := g }) (fun _ => rfl)
  have h4 := sameLook_setRegistry ((s1.touch wnd).modify wnd (fun w => { w with groupId := g }))
    (((s1.touch wnd).modify wnd (fun w => { w with groupId := g })).gNotifs ++ [wnd])
  have h5 := sameLook_touch { (s1.touch wnd).modify wnd (fun w => { w with groupId := g }) with
    gNotifs := ((s1.touch wnd).modify wnd (fun w => { w with groupId := g })).gNotifs ++ [wnd] } wnd
  exact ((((h1.look_trans h2).look_trans h3).look_trans h4).look_trans h5).look_trans
    (sameLook_Relayout _ _ _)

theorem sameLook_NotifsAdd (env : Env) (wnd : Nat) (g : Kind) (s : State) :
    SameLook s (NotifsAdd env wnd g s) := by
  unfold NotifsAdd GetForSameHwnd GetForHwnd
  simp only
  exact ((sameLook_touch s wnd).look_trans (sameLook_touchAll _ _)).look_trans
    (sameLook_NotifsAddTo env _ wnd g _)

theorem look_Layout_text (env : Env) (msg : String) (w : NotificationWnd) :
    (w.Layout env msg).text = w.text := by
  unfold NotificationWnd.Layout NotificationWnd.SetWindowXY NotificationWnd.SetWindowSize
  simp only [apply_ite NotificationWnd.text]
  simp

/-! ## Properties C1 to C10 -/

theorem length_le_one_of_unique {l : List Nat} (hn : l.Nodup)
    (hu : ∀ a ∈ l, ∀ b ∈ l, a = b) : l.length ≤ 1 := by
  match l, hn, hu with
  | [], _, _ => simp
  | [_], _, _ => simp
  | a :: b :: t, hn, hu =>
    exfalso
    have e : a = b := hu a (by simp) b (by simp)
    subst e
    simp at hn

theorem eq_singleton_of_unique {l : List Nat} {w : Nat} (hn : l.Nodup)
    (hu : ∀ a ∈ l, ∀ b ∈ l, a = b) (hw : w ∈ l) : l = [w] := by
  have hlen := length_le_one_of_unique hn hu
  match l, hw, hlen with
  | [a], hw, _ => simp at hw; rw [hw]
  | a :: b :: t, _, hlen => simp at hlen

theorem InvX.group_filter_unique {d : Bool} {extra : List Nat} {s : State} (hi : InvX d extra s)
    (P : HWND) (G : Kind) (hG : G ≠ none) (hA : G ≠ kNotifAdHoc) :
    ∀ a ∈ s.gNotifs.filter (fun h => (s.obj h).parent == P && (s.obj h).groupId == G),
    ∀ b ∈ s.gNotifs.filter (fun h => (s.obj h).parent == P && (s.obj h).groupId == G),
      a = b := by
  intro a ha b hb
  simp only [List.mem_filter, Bool.and_eq_true, beq_iff_eq] at ha hb
  exact hi.group_unique a ha.1 b hb.1 (ha.2.1.trans hb.2.1.symm) (ha.2.2.trans hb.2.2.symm)
    (ha.2.2 ▸ hG) (ha.2.2 ▸ hA)

/-- C1: starting from the empty registry, after every finite sequence of
operations (calls of the public functions, among them `ShowNotification`,
`RemoveNotification` and `RemoveNotificationsForGroup`, delivered messages and
timers, and posted tasks run by the UI thread), for every parent window `P` and
every group `G` that is neither `nullptr` nor `kNotifAdHoc`, `gNotifs` holds at
most one notification whose parent is `P` and whose `groupId` is `G`. -/
theorem at_most_one_per_group (ops : List (Env × Op)) (P : HWND) (G : Kind)
    (hG : G ≠ none) (hA : G ≠ kNotifAdHoc) :
    ((run ops State.init).gNotifs.filter (fun h =>
        ((run ops State.init).obj h).parent == P &&
        ((run ops State.init).obj h).groupId == G)).length ≤ 1 :=
  length_le_one_of_unique ((run_inv ops).nodup.filter _)
    ((run_inv ops).group_filter_unique P G hG hA)

theorem at_most_one_per_group_witness :
    kNotifPageInfo ≠ none ∧ kNotifPageInfo ≠ kNotifAdHoc ∧
    ((run [(sampleEnv, Op.showNotification (pageInfoArgs "Page 1/10") true),
           (sampleEnv, Op.showNotification (pageInfoArgs "Page 2/10") true)]
        State.init).gNotifs.filter (fun h =>
        ((run [(sampleEnv, Op.showNotification (pageInfoArgs "Page 1/10") true),
               (sampleEnv, Op.showNotification (pageInfoArgs "Page 2/10") true)]
            State.init).obj h).parent == HWND.host 1 &&
        ((run [(sampleEnv, Op.showNotification (pageInfoArgs "Page 1/10") true),
               (sampleEnv, Op.showNotification (pageInfoArgs "Page 2/10") true)]
            State.init).obj h).groupId == kNotifPageInfo)).length ≤ 1 :=
  ⟨by decide, by decide,
   at_most_one_per_group
     [(sampleEnv, Op.showNotification (pageInfoArgs "Page 1/10") true),
      (sampleEnv, Op.showNotification (pageInfoArgs "Page 2/10") true)]
     (HWND.host 1) kNotifPageInfo (by decide) (by decide)⟩

theorem text_SetTimer (w : NotificationWnd) (ms : Int) : (w.SetTimer ms).text = w.text := by
  unfold NotificationWnd.SetTimer; split <;> rfl

theorem text_Create (env : Env) (args : NotificationCreateArgs) (self : Nat)
    (w : NotificationWnd) : (w.Create env args true self).text = args.msg := by
  unfold NotificationWnd.Create
  simp only [apply_ite NotificationWnd.text, text_SetTimer, look_Layout_text]
  simp

theorem replaced_alloc_mem (env : Env) (args : NotificationCreateArgs) {d : Bool} {s : State}
    (hi : InvX d [] s) (hg : ¬ (args.groupId = none ∨ args.groupId = kNotifAdHoc)) (h : Nat) :
    h ∈ replaced (allocState env args true s) s.heap.length args.groupId ↔
      h ∈ s.gNotifs ∧ (s.obj h).groupId = args.groupId ∧ (s.obj h).parent = args.hwndParent := by
  rw [replaced_mem hg]
  have hp : ((allocState env args true s).obj s.heap.length).parent = args.hwndParent :=
    congrArg Core.parent (allocState_new_core env args true s)
  rw [hp]
  constructor
  · rintro ⟨h1, h2⟩
    have h1' : h ∈ s.gNotifs := h1
    rw [allocState_obj_old env args true s (hi.reg_lt h1')] at h2
    exact ⟨h1', h2⟩
  · rintro ⟨h1, h2⟩
    rw [allocState_obj_old env args true s (hi.reg_lt h1)]
    exact ⟨h1, h2⟩

/-- C2: in every reachable state, a successful `ShowNotification` with parent
`P`, a group `G` that is neither `nullptr` nor `kNotifAdHoc` and message `m`
returns the new notification; afterwards the registry is the old one without
the notifications that had `(P, G)`, followed by the new one; the new one is
the only entry with `(P, G)`, `GetNotificationForGroup(P, G)` returns it, its
text is `m`, it is the last entry, and every notification that had `(P, G)`
before is out of the registry and deleted. -/
theorem group_replacement (ops : List (Env × Op)) (env : Env) (args : NotificationCreateArgs)
    (hG : args.groupId ≠ none) (hA : args.groupId ≠ kNotifAdHoc) :
    (ShowNotification env args true (run ops State.init)).1
        = some (run ops State.init).heap.length ∧
    (ShowNotification env args true (run ops State.init)).2.gNotifs
        = (run ops State.init).gNotifs.filter (fun h =>
            !(((run ops State.init).obj h).parent == args.hwndParent &&
              ((run ops State.init).obj h).groupId == args.groupId))
          ++ [(run ops State.init).heap.length] ∧
    (ShowNotification env args true (run ops State.init)).2.gNotifs.filter (fun h =>
        ((ShowNotification env args true (run ops State.init)).2.obj h).parent
            == args.hwndParent &&
        ((ShowNotification env args true (run ops State.init)).2.obj h).groupId
            == args.groupId)
        = [(run ops State.init).heap.length] ∧
    (GetNotificationForGroup env args.hwndParent args.groupId
        (ShowNotification env args true (run ops State.init)).2).1
        = some (run ops State.init).heap.length ∧
    ((ShowNotification env args true (run ops State.init)).2.obj
        (run ops State.init).heap.length).text = args.msg ∧
    (ShowNotification env args true (run ops State.init)).2.gNotifs.getLast?
        = some (run ops State.init).heap.length ∧
    (∀ h ∈ (run ops State.init).gNotifs,
        ((run ops State.init).obj h).parent = args.hwndParent →
        ((run ops State.init).obj h).groupId = args.groupId →
        h ∉ (ShowNotification env args true (run ops State.init)).2.gNotifs ∧
        ((ShowNotification env args true (run ops State.init)).2.obj h).alive = false ∧
        h ∈ (ShowNotification env args true (run ops State.init)).2.deleted) := by
  have hi := run_inv ops
  have hi' := ShowNotification_inv env args true hi (fun hd => Bool.noConfusion hd)
  generalize run ops State.init = s at hi hi'
  have hg : ¬ (args.groupId = none ∨ args.groupId = kNotifAdHoc) := by
    rintro (h | h)
    · exact hG h
    · exact hA h
  have h1 := allocState_inv env args true hi (fun hd => Bool.noConfusion hd)
  have hc := allocState_new_core env args true s
  have hal : ((allocState env args true s).obj s.heap.length).alive = true :=
    congrArg Core.alive hc
  have hw : ((allocState env args true s).obj s.heap.length).hwnd = .notif s.heap.length :=
    congrArg Core.hwnd hc
  have hp : ((allocState env args true s).obj s.heap.length).parent = args.hwndParent :=
    congrArg Core.parent hc
  obtain ⟨s1, hk, ha⟩ := NotifsAdd_spec env s.heap.length args.groupId h1 hal hw
  have hlook := sameLook_NotifsAdd env s.heap.length args.groupId (allocState env args true s)
  have hrm := replaced_alloc_mem env args hi hg
  rw [ShowNotification_eq] at hi' ⊢
  simp only [if_true] at hi' ⊢
  generalize NotifsAdd env s.heap.length args.groupId (allocState env args true s) = s' at *
  have hreg : s'.gNotifs = s.gNotifs.filter (fun h =>
      !((s.obj h).parent == args.hwndParent && (s.obj h).groupId == args.groupId))
      ++ [s.heap.length] := by
    rw [ha.gNotifs, hk.gNotifs]
    congr 1
    show List.filter _ s.gNotifs = _
    apply List.filter_congr
    intro h hh
    by_cases hc2 : (s.obj h).groupId = args.groupId ∧ (s.obj h).parent = args.hwndParent
    · have : h ∈ replaced (allocState env args true s) s.heap.length args.groupId :=
        (hrm h).2 ⟨hh, hc2⟩
      simp [this, hc2.1, hc2.2]
    · have : h ∉ replaced (allocState env args true s) s.heap.length args.groupId :=
        fun hm => hc2 ((hrm h).1 hm).2
      simp only [this, not_false_eq_true, decide_True]
      rw [not_and_or] at hc2
      rcases hc2 with h3 | h3
      · simp [h3]
      · simp [h3]
  have hmemw : s.heap.length ∈ s'.gNotifs := by rw [ha.gNotifs]; simp
  have hpw : (s'.obj s.heap.length).parent = args.hwndParent := by
    rw [ha.parent_added, hk.parent_after]; exact hp
  have hgw : (s'.obj s.heap.length).groupId = args.groupId := by
    rw [ha.groupId_added, if_pos rfl]
  have hfil : s'.gNotifs.filter (fun h =>
      (s'.obj h).parent == args.hwndParent && (s'.obj h).groupId == args.groupId)
      = [s.heap.length] :=
    eq_singleton_of_unique (hi'.nodup.filter _)
      (hi'.group_filter_unique args.hwndParent args.groupId hG hA)
      (List.mem_filter.2 ⟨hmemw, by simp [hpw, hgw]⟩)
  refine ⟨trivial, hreg, hfil, ?_, ?_, ?_, ?_⟩
  · unfold GetNotificationForGroup NotifsGetForGroup
    simp only
    rw [hi'.GetForHwnd_fst, hi'.GetForHwnd_snd, List.find?_filter, ← List.filter_head?]
    have e : s'.gNotifs.filter (fun a => decide (((s'.obj a).parent == args.hwndParent) = true ∧
        ((s'.obj a).groupId == args.groupId) = true))
        = s'.gNotifs.filter (fun h =>
            (s'.obj h).parent == args.hwndParent && (s'.obj h).groupId == args.groupId) :=
      List.filter_congr (fun a _ => by
        by_cases h1 : (s'.obj a).parent = args.hwndParent <;>
        by_cases h2 : (s'.obj a).groupId = args.groupId <;> simp [h1, h2])
    rw [e, hfil]
    rfl
  · have := congrArg Look.text (hlook s.heap.length)
    simp only [NotificationWnd.look] at this
    rw [this, allocState_obj_new, text_Create]
  · rw [hreg]; simp
  · intro h hh hph hgh
    have hin := (hrm h).2 ⟨hh, hgh, hph⟩
    have hne : h ≠ s.heap.length := fun e => Nat.lt_irrefl _ (e ▸ hi.reg_lt hh)
    refine ⟨?_, ?_, ?_⟩
    · rw [ha.gNotifs, List.mem_append, hk.mem_gNotifs]
      rintro (h3 | h3)
      · exact h3.2 hin
      · simp at h3; exact hne h3
    · rw [ha.alive_added, hk.alive_after, if_pos hin]
    · rw [ha.deleted, hk.deleted]
      exact List.mem_append_right _ hin

theorem group_replacement_witness :
    (pageInfoArgs "Page 2/10").groupId ≠ none ∧
    (pageInfoArgs "Page 2/10").groupId ≠ kNotifAdHoc ∧
    (ShowNotification sampleEnv (pageInfoArgs "Page 2/10") true
        (run [(sampleEnv, Op.showNotification (pageInfoArgs "Page 1/10") true)]
          State.init)).2.gNotifs = [1] ∧
    ((ShowNotification sampleEnv (pageInfoArgs "Page 2/10") true
        (run [(sampleEnv, Op.showNotification (pageInfoArgs "Page 1/10") true)]
          State.init)).2.obj 1).text = "Page 2/10" ∧
    (ShowNotification sampleEnv (pageInfoArgs "Page 2/10") true
        (run [(sampleEnv, Op.showNotification (pageInfoArgs "Page 1/10") true)]
          State.init)).2.deleted = [0] := by
  have h := group_replacement
    [(sampleEnv, Op.showNotification (pageInfoArgs "Page 1/10") true)] sampleEnv
    (pageInfoArgs "Page 2/10") (by decide) (by decide)
  exact ⟨by decide, by decide, by decide, h.2.2.2.2.1, by decide⟩

theorem NotifsAdd_skip (env : Env) (s : State) (w : Nat) (g : Kind)
    (hg : g = none ∨ g = kNotifAdHoc) :
    (NotifsAdd env w g s).gNotifs = s.gNotifs ++ [w] ∧
    (NotifsAdd env w g s).deleted = s.deleted ∧
    (NotifsAdd env w g s).heap.length = s.heap.length := by
  have hb : (g == none || g == kNotifAdHoc) = true := by
    rcases hg with h | h <;> simp [h]
  unfold NotifsAdd GetForSameHwnd GetForHwnd NotifsAddTo
  simp only [hb, Bool.not_true, Bool.false_eq_true, if_false]
  have h0 : SameCore s ((s.touch w).touchAll (s.touch w).gNotifs) :=
    (sameCore_touch s w).core_trans (sameCore_touchAll _ _)
  revert h0
  generalize (s.touch w).touchAll (s.touch w).gNotifs = s1
  intro h0
  have h1 := sameCore_touch s1 w
  have h3 := sameCore_touch { (s1.touch w).modify w (fun x => { x with groupId := g }) with
    gNotifs := ((s1.touch w).modify w (fun x => { x with groupId := g })).gNotifs ++ [w] } w
  have h4 := sameCore_Relayout env
    ((State.touch { (s1.touch w).modify w (fun x => { x with groupId := g }) with
      gNotifs := ((s1.touch w).modify w (fun x => { x with groupId := g })).gNotifs ++ [w] }
      w).obj w).hwnd
    (State.touch { (s1.touch w).modify w (fun x => { x with groupId := g }) with
      gNotifs := ((s1.touch w).modify w (fun x => { x with groupId := g })).gNotifs ++ [w] } w)
  have h34 := h3.core_trans h4
  refine ⟨?_, ?_, ?_⟩
  · rw [h34.gNotifs_eq]
    show (s1.touch w).gNotifs ++ [w] = _
    rw [h1.gNotifs_eq, h0.gNotifs_eq]
  · rw [h34.deleted_eq]
    show (s1.touch w).deleted = _
    rw [h1.deleted_eq, h0.deleted_eq]
  · rw [h34.len]
    simp only [State.modify, List.length_set]
    rw [h1.len, h0.len]

theorem showAll_adhoc (env : Env) (argsList : List NotificationCreateArgs)
    (hall : ∀ a ∈ argsList, a.groupId = kNotifAdHoc) (s : State) :
    (run (argsList.map (fun a => (env, Op.showNotification a true))) s).gNotifs
        = s.gNotifs ++ List.range' s.heap.length argsList.length ∧
    (run (argsList.map (fun a => (env, Op.showNotification a true))) s).deleted = s.deleted := by
  induction argsList generalizing s with
  | nil => simp [run]
  | cons a t ih =>
    have hstep : step env (Op.showNotification a true) s
        = NotifsAdd env s.heap.length a.groupId (allocState env a true s) := by
      simp [step, ShowNotification_eq]
    have hsk := NotifsAdd_skip env (allocState env a true s) s.heap.length a.groupId
      (Or.inr (hall a (List.mem_cons_self _ _)))
    have hlen : (allocState env a true s).heap.length = s.heap.length + 1 := by
      simp [allocState]
    have := ih (fun b hb => hall b (List.mem_cons_of_mem _ hb))
      (NotifsAdd env s.heap.length a.groupId (allocState env a true s))
    simp only [List.map_cons, run, List.foldl_cons, hstep] at this ⊢
    rw [this.1, this.2, hsk.1, hsk.2.1, hsk.2.2, hlen]
    refine ⟨?_, rfl⟩
    show s.gNotifs ++ [s.heap.length] ++ _ = _
    simp [List.range'_succ]

/-- C3: for every state and every notification `w`, `NotifsAdd` with the
group `kNotifAdHoc` (or `nullptr`) removes and deletes nothing: the registry
afterwards is the registry before with `w` appended.  Hence after showing `N`
notifications with `kNotifAdHoc` (under whatever parents, so also under one
parent), the `N` new notifications are all in the registry, in the order they
were shown, nothing was deleted, and `IsNotificationValid` holds for each. -/
theorem adhoc_exemption (env : Env) (s : State) (w : Nat) (g : Kind)
    (hg : g = none ∨ g = kNotifAdHoc) (argsList : List NotificationCreateArgs)
    (hall : ∀ a ∈ argsList, a.groupId = kNotifAdHoc) :
    (NotifsAdd env w g s).gNotifs = s.gNotifs ++ [w] ∧
    (NotifsAdd env w g s).deleted = s.deleted ∧
    (run (argsList.map (fun a => (env, Op.showNotification a true))) s).gNotifs
        = s.gNotifs ++ List.range' s.heap.length argsList.length ∧
    (run (argsList.map (fun a => (env, Op.showNotification a true))) s).deleted = s.deleted ∧
    ∀ i, i < argsList.length →
      IsNotificationValid (s.heap.length + i)
        (run (argsList.map (fun a => (env, Op.showNotification a true))) s) = true := by
  have h1 := NotifsAdd_skip env s w g hg
  have h2 := showAll_adhoc env argsList hall s
  refine ⟨h1.1, h1.2.1, h2.1, h2.2, ?_⟩
  intro i hi
  simp only [IsNotificationValid, decide_eq_true_eq]
  rw [h2.1]
  apply List.mem_append_right
  rw [List.mem_range']
  exact ⟨i, hi, by simp⟩

theorem adhoc_exemption_witness :
    (kNotifAdHoc = none ∨ kNotifAdHoc = kNotifAdHoc) ∧
    (∀ a ∈ [adHocArgs "a", adHocArgs "b", adHocArgs "c"], a.groupId = kNotifAdHoc) ∧
    (run ([adHocArgs "a", adHocArgs "b", adHocArgs "c"].map
        (fun a => (sampleEnv, Op.showNotification a true))) State.init).gNotifs = [0, 1, 2] ∧
    (run ([adHocArgs "a", adHocArgs "b", adHocArgs "c"].map
        (fun a => (sampleEnv, Op.showNotification a true))) State.init).deleted = [] :=
  have h := adhoc_exemption sampleEnv State.init 0 kNotifAdHoc (Or.inr rfl)
    [adHocArgs "a", adHocArgs "b", adHocArgs "c"] (by decide)
  ⟨Or.inr rfl, by decide, h.2.2.1, h.2.2.2.1⟩

/-- C4: in every reachable state, `RemoveNotification(w)` on a `w` that is not
in `gNotifs` returns the state unchanged (nothing is removed, deleted or
read); on a `w` that is in `gNotifs` it removes `w`, keeps the other entries
in their order and deletes `w` exactly once (`w` was not deleted before and is
recorded once afterwards); a second call on the same `w` changes nothing. -/
theorem double_removal_safety (ops : List (Env × Op)) (env : Env) (w : Nat) :
    (w ∉ (run ops State.init).gNotifs →
      RemoveNotification env w (run ops State.init) = run ops State.init) ∧
    (w ∈ (run ops State.init).gNotifs →
      w ∉ (RemoveNotification env w (run ops State.init)).gNotifs ∧
      (RemoveNotification env w (run ops State.init)).gNotifs
        = (run ops State.init).gNotifs.filter (fun k => decide (k ≠ w)) ∧
      ((run ops State.init).obj w).alive = true ∧
      (run ops State.init).deleted.count w = 0 ∧
      ((RemoveNotification env w (run ops State.init)).obj w).alive = false ∧
      (RemoveNotification env w (run ops State.init)).deleted
        = (run ops State.init).deleted ++ [w] ∧
      (RemoveNotification env w (run ops State.init)).deleted.count w = 1) ∧
    RemoveNotification env w (RemoveNotification env w (run ops State.init))
      = RemoveNotification env w (run ops State.init) := by
  have hi := run_inv ops
  generalize run ops State.init = s at hi
  have habs : w ∉ (RemoveNotification env w s).gNotifs := by
    by_cases hm : w ∈ s.gNotifs
    · have hk := killed_NotifsRemoveNotification env s w hm hi.nodup
      intro hc
      have := ((hk.mem_gNotifs w).1 hc).2
      simp at this
    · unfold RemoveNotification
      rw [NotifsRemoveNotification_absent env s w hm]; exact hm
  refine ⟨fun hm => NotifsRemoveNotification_absent env s w hm, fun hm => ?_,
    NotifsRemoveNotification_absent env _ w habs⟩
  have hk := killed_NotifsRemoveNotification env s w hm hi.nodup
  have hal := (hi.reg_live w hm).1
  have hnd : w ∉ s.deleted := by
    intro hc
    have := ((hi.deleted_iff w).1 hc).2
    rw [hal] at this
    exact Bool.noConfusion this
  refine ⟨habs, ?_, hal, List.count_eq_zero.2 hnd, ?_, hk.deleted, ?_⟩
  · show (NotifsRemoveNotification env w s).gNotifs = _
    rw [hk.gNotifs]
    apply List.filter_congr
    intro k _
    simp
  · show ((NotifsRemoveNotification env w s).obj w).alive = false
    rw [hk.alive_after]; simp
  · show (NotifsRemoveNotification env w s).deleted.count w = 1
    rw [hk.deleted, List.count_append, List.count_eq_zero.2 hnd]
    simp

theorem double_removal_safety_witness :
    0 ∈ (run [(sampleEnv, Op.showNotification (adHocArgs "x") true)] State.init).gNotifs ∧
    (RemoveNotification sampleEnv 0
      (run [(sampleEnv, Op.showNotification (adHocArgs "x") true)] State.init)).deleted.count 0
      = 1 ∧
    RemoveNotification sampleEnv 0 (RemoveNotification sampleEnv 0
      (run [(sampleEnv, Op.showNotification (adHocArgs "x") true)] State.init))
      = RemoveNotification sampleEnv 0
          (run [(sampleEnv, Op.showNotification (adHocArgs "x") true)] State.init) :=
  have h := double_removal_safety
    [(sampleEnv, Op.showNotification (adHocArgs "x") true)] sampleEnv 0
  ⟨by decide, (h.2.1 (by decide)).2.2.2.2.2.2, h.2.2⟩

/-- C5: in every state reachable through the public functions, the message
and timer handlers and the posted tasks, when every notification is created
with the default removal callback: every entry of `gNotifs` is a live object
that was never deleted; every allocated object that is not in `gNotifs` has
been deleted, exactly once; every object holds the default callback and every
posted task is a `NotifRemove` task, so the `NotifDelete` branch, which would
delete a notification and leave it registered, is never taken. -/
theorem removal_destruction_coupled (ops : List (Env × Op))
    (hd : ∀ eo ∈ ops, eo.2.defaultCb = true) :
    (∀ h ∈ (run ops State.init).gNotifs,
      ((run ops State.init).obj h).alive = true ∧ h ∉ (run ops State.init).deleted) ∧
    (∀ h, h < (run ops State.init).heap.length → h ∉ (run ops State.init).gNotifs →
      ((run ops State.init).obj h).alive = false ∧ (run ops State.init).deleted.count h = 1) ∧
    (∀ h, h < (run ops State.init).heap.length →
      ((run ops State.init).obj h).wndRemovedCb = .notifsRemoveNotification) ∧
    (∀ t ∈ (run ops State.init).tasks, ∃ h, t = UITask.NotifRemove h) := by
  have hi := run_invD ops hd
  generalize run ops State.init = s at hi
  refine ⟨fun h hh => ?_, fun h hlt hn => ?_, hi.cb_default rfl, hi.tasks_remove⟩
  · have hal := (hi.reg_live h hh).1
    refine ⟨hal, fun hc => ?_⟩
    have := ((hi.deleted_iff h).1 hc).2
    rw [hal] at this
    exact Bool.noConfusion this
  · have hal : (s.obj h).alive = false := by
      cases hc : (s.obj h).alive with
      | false => rfl
      | true =>
        rcases hi.live_reg h hc with h1 | h1
        · exact absurd h1 hn
        · simp at h1
    exact ⟨hal, List.count_eq_one_of_mem hi.deleted_nodup ((hi.deleted_iff h).2 ⟨hlt, hal⟩)⟩

theorem removal_destruction_coupled_witness :
    (∀ eo ∈ [(sampleEnv, Op.showNotification (pageInfoArgs "Page 1/10") true),
             (sampleEnv, Op.showNotification (pageInfoArgs "Page 2/10") true),
             (sampleEnv, Op.showNotification (adHocArgs "x") true),
             (sampleEnv, Op.timer 2), (sampleEnv, Op.runTask)], eo.2.defaultCb = true) ∧
    (run [(sampleEnv, Op.showNotification (pageInfoArgs "Page 1/10") true),
          (sampleEnv, Op.showNotification (pageInfoArgs "Page 2/10") true),
          (sampleEnv, Op.showNotification (adHocArgs "x") true),
          (sampleEnv, Op.timer 2), (sampleEnv, Op.runTask)] State.init).gNotifs = [1] ∧
    (run [(sampleEnv, Op.showNotification (pageInfoArgs "Page 1/10") true),
          (sampleEnv, Op.showNotification (pageInfoArgs "Page 2/10") true),
          (sampleEnv, Op.showNotification (adHocArgs "x") true),
          (sampleEnv, Op.timer 2), (sampleEnv, Op.runTask)] State.init).deleted = [0, 2] ∧
    (∀ t ∈ (run [(sampleEnv, Op.showNotification (pageInfoArgs "Page 1/10") true),
          (sampleEnv, Op.showNotification (pageInfoArgs "Page 2/10") true),
          (sampleEnv, Op.showNotification (adHocArgs "x") true),
          (sampleEnv, Op.timer 2), (sampleEnv, Op.runTask)] State.init).tasks,
      ∃ h, t = UITask.NotifRemove h) :=
  ⟨by decide, by decide, by decide,
   (removal_destruction_coupled
      [(sampleEnv, Op.showNotification (pageInfoArgs "Page 1/10") true),
       (sampleEnv, Op.showNotification (pageInfoArgs "Page 2/10") true),
       (sampleEnv, Op.showNotification (adHocArgs "x") true),
       (sampleEnv, Op.timer 2), (sampleEnv, Op.runTask)] (by decide)).2.2.2⟩

/-- C6, the code at the failing input: a timer posts the removal task of
notification 0, `RemoveNotification(0)` then deletes it, and the posted task
runs.  The task leaves the registry and the objects as they are, but it reads
`wndRemovedCb` through the pointer to the deleted object: the access is
recorded in `staleReads`. -/
theorem stale_task_reads_deleted_object :
    (run [(sampleEnv, Op.showNotification (adHocArgs "x") true), (sampleEnv, Op.timer 0),
          (sampleEnv, Op.removeNotification 0)] State.init).tasks = [UITask.NotifRemove 0] ∧
    (run [(sampleEnv, Op.showNotification (adHocArgs "x") true), (sampleEnv, Op.timer 0),
          (sampleEnv, Op.removeNotification 0)] State.init).deleted = [0] ∧
    (run [(sampleEnv, Op.showNotification (adHocArgs "x") true), (sampleEnv, Op.timer 0),
          (sampleEnv, Op.removeNotification 0)] State.init).staleReads = [] ∧
    (runTask sampleEnv
      (run [(sampleEnv, Op.showNotification (adHocArgs "x") true), (sampleEnv, Op.timer 0),
            (sampleEnv, Op.removeNotification 0)] State.init)).gNotifs = [] ∧
    (runTask sampleEnv
      (run [(sampleEnv, Op.showNotification (adHocArgs "x") true), (sampleEnv, Op.timer 0),
            (sampleEnv, Op.removeNotification 0)] State.init)).heap
      = (run [(sampleEnv, Op.showNotification (adHocArgs "x") true), (sampleEnv, Op.timer 0),
            (sampleEnv, Op.removeNotification 0)] State.init).heap ∧
    (runTask sampleEnv
      (run [(sampleEnv, Op.showNotification (adHocArgs "x") true), (sampleEnv, Op.timer 0),
            (sampleEnv, Op.removeNotification 0)] State.init)).staleReads = [0] := by
  decide

theorem execTask_killed (env : Env) (t : UITask) {d : Bool} {s : State} (hi : InvX d [] s)
    (ht : ∃ h, t = UITask.NotifRemove h) : ∃ rs, Killed rs s (execTask env t s) := by
  obtain ⟨h, rfl⟩ := ht
  simp only [execTask, NotifRemove]
  have hs := sameCore_touch s h
  have hi2 := hi.sameCore hs
  split
  · by_cases hm : h ∈ (s.touch h).gNotifs
    · exact ⟨[h], Killed.after_same hs
        (killed_NotifsRemoveNotification env _ h hm hi2.nodup)⟩
    · rw [NotifsRemoveNotification_absent env _ h hm]; exact ⟨[], hs⟩
  · exact ⟨[], hs⟩
  · exact ⟨[], hs⟩

theorem execTask_removes (env : Env) (w : Nat) {d : Bool} {s : State} (hi : InvX d [] s)
    (hcb : (s.obj w).wndRemovedCb = .notifsRemoveNotification) :
    w ∉ (execTask env (UITask.NotifRemove w) s).gNotifs := by
  simp only [execTask, NotifRemove]
  have hs := sameCore_touch s w
  have hi2 := hi.sameCore hs
  rw [touch_obj, hcb]
  simp only
  by_cases hm : w ∈ (s.touch w).gNotifs
  · have hk := killed_NotifsRemoveNotification env _ w hm hi2.nodup
    intro hc
    have := ((hk.mem_gNotifs w).1 hc).2
    simp at this
  · rw [NotifsRemoveNotification_absent env _ w hm]; exact hm

theorem drain_removes (env : Env) (w : Nat) (ts : List UITask) {d : Bool} {s : State}
    (hi : InvX d [] s) (ht : s.tasks = ts ++ [UITask.NotifRemove w])
    (hcb : (s.obj w).wndRemovedCb = .notifsRemoveNotification) :
    InvX d [] (runTasks env (ts.length + 1) s) ∧
    w ∉ (runTasks env (ts.length + 1) s).gNotifs := by
  induction ts generalizing s with
  | nil =>
    have hrun : runTasks env ([] : List UITask).length.succ s
        = execTask env (UITask.NotifRemove w) { s with tasks := [] } := by
      simp only [List.length_nil, runTasks, runTask]
      rw [ht]; rfl
    have hi0 : InvX d [] { s with tasks := [] } := hi.set_tasks [] (by simp)
    rw [hrun]
    exact ⟨execTask_inv env _ hi0 ⟨w, rfl⟩, execTask_removes env w hi0 hcb⟩
  | cons t rest ih =>
    have htr : ∃ h, t = UITask.NotifRemove h := hi.tasks_remove t (by rw [ht]; simp)
    have hi0 : InvX d [] { s with tasks := rest ++ [UITask.NotifRemove w] } :=
      hi.set_tasks _ (fun u hu => hi.tasks_remove u (by rw [ht]; exact List.mem_cons_of_mem _ hu))
    have hrun : runTask env s
        = execTask env t { s with tasks := rest ++ [UITask.NotifRemove w] } := by
      simp only [runTask]
      rw [ht]; rfl
    obtain ⟨rs, hk⟩ := execTask_killed env t hi0 htr
    have hi1 := execTask_inv env t hi0 htr
    have := ih hi1 hk.tasks (by rw [hk.cb_after]; exact hcb)
    simp only [List.length_cons, runTasks, hrun]
    exact this

theorem Layout_size (env : Env) (msg : String) (w : NotificationWnd)
    (hw : w.hasWindow = true) :
    (w.Layout env msg).pos.dx
      = (if DpiScale env 12 + (env.measureText msg).dx + DpiScale env 12
              + (DpiScale env (kCloseLeftMargin - DpiScale env 12) + DpiScale env 16
                + DpiScale env 12) < w.pos.dx
         then w.pos.dx
         else DpiScale env 12 + (env.measureText msg).dx + DpiScale env 12
              + (DpiScale env (kCloseLeftMargin - DpiScale env 12) + DpiScale env 16
                + DpiScale env 12)) ∧
    (w.Layout env msg).pos.dy
      = (if w.HasProgress then
           DpiScale env 8 + (env.measureText msg).dy + DpiScale env 8
            + (DpiScale env 8 + DpiScale env kProgressDy + DpiScale env 8)
         else DpiScale env 8 + (env.measureText msg).dy + DpiScale env 8) := by
  have hw2 : ∀ (a b c : Rect) (p : Rect),
      NotificationWnd.hasWindow { w with rTxt := a, rClose := b, rProgress := c, pos := p }
        = true := by
    intro a b c p
    simpa [NotificationWnd.hasWindow] using hw
  unfold NotificationWnd.Layout
  simp only [NotificationWnd.WindowRect, hw, if_true]
  by_cases hc : (if DpiScale env 12 + (env.measureText msg).dx + DpiScale env 12
              + (DpiScale env (kCloseLeftMargin - DpiScale env 12) + DpiScale env 16
                + DpiScale env 12) < w.pos.dx
         then w.pos.dx
         else DpiScale env 12 + (env.measureText msg).dx + DpiScale env 12
              + (DpiScale env (kCloseLeftMargin - DpiScale env 12) + DpiScale env 16
                + DpiScale env 12)) = w.pos.dx ∧
      (if w.HasProgress = true then
           DpiScale env 8 + (env.measureText msg).dy + DpiScale env 8
            + (DpiScale env 8 + DpiScale env kProgressDy + DpiScale env 8)
         else DpiScale env 8 + (env.measureText msg).dy + DpiScale env 8) = w.pos.dy
  · rw [if_pos hc]
    exact ⟨hc.1.symm, hc.2.symm⟩
  · rw [if_neg hc]
    cases hr : env.isRtl <;>
      simp [NotificationWnd.SetWindowSize, NotificationWnd.SetWindowXY,
        NotificationWnd.WindowRect, NotificationWnd.hasWindow, hw2, hw,
        (by simpa [NotificationWnd.hasWindow] using hw : w.alive = true ∧ w.hwnd ≠ HWND.null)]

theorem progressPerc_UpdateMessage (env : Env) (msg : String) (t : Int) (hl : Bool)
    (w : NotificationWnd) : (w.UpdateMessage env msg t hl).progressPerc = w.progressPerc := by
  unfold NotificationWnd.UpdateMessage NotificationWnd.Layout NotificationWnd.SetTimer
    NotificationWnd.HwndSetText NotificationWnd.SetWindowXY NotificationWnd.SetWindowSize
  simp only [apply_ite NotificationWnd.progressPerc]
  simp

/-- C7: for every notification `w` that is registered in a reachable state
and holds the default removal callback, `OnTimer` and the close click of
`WndProc` (a `WM_LBUTTONUP` whose point lies in `rClose`) only post one
`NotifRemove` task for `w`: the registry, the objects and the deletions stay
as they are.  Once the UI thread has run the posted tasks up to and including
that task, `w` is not in `gNotifs`, `IsNotificationValid(w)` is false, `w` is
not listed for any parent, and `w` is deleted. -/
theorem deferred_self_destruction (ops : List (Env × Op)) (env : Env) (w : Nat)
    (hw : w ∈ (run ops State.init).gNotifs)
    (hcb : ((run ops State.init).obj w).wndRemovedCb = .notifsRemoveNotification) :
    OnTimer w (run ops State.init) = (run ops State.init).post (UITask.NotifRemove w) ∧
    (∀ lp cursor,
      ((run ops State.init).obj w).rClose.Contains ⟨GET_X_LPARAM lp, GET_Y_LPARAM lp⟩ = true →
      WndProc w WM_LBUTTONUP lp cursor (run ops State.init)
        = (some 0, (run ops State.init).post (UITask.NotifRemove w))) ∧
    ((run ops State.init).post (UITask.NotifRemove w)).gNotifs = (run ops State.init).gNotifs ∧
    ((run ops State.init).post (UITask.NotifRemove w)).heap = (run ops State.init).heap ∧
    ((run ops State.init).post (UITask.NotifRemove w)).deleted = (run ops State.init).deleted ∧
    ((run ops State.init).post (UITask.NotifRemove w)).tasks
      = (run ops State.init).tasks ++ [UITask.NotifRemove w] ∧
    w ∉ (runTasks env ((run ops State.init).tasks.length + 1)
          ((run ops State.init).post (UITask.NotifRemove w))).gNotifs ∧
    IsNotificationValid w (runTasks env ((run ops State.init).tasks.length + 1)
          ((run ops State.init).post (UITask.NotifRemove w))) = false ∧
    (∀ P, w ∉ (GetForHwnd env P (runTasks env ((run ops State.init).tasks.length + 1)
          ((run ops State.init).post (UITask.NotifRemove w)))).1) ∧
    ((runTasks env ((run ops State.init).tasks.length + 1)
          ((run ops State.init).post (UITask.NotifRemove w))).obj w).alive = false := by
  have hi := run_inv ops
  generalize run ops State.init = s at hi hw hcb
  have hhas := hi.hasWindow hw
  have hal := (hi.reg_live w hw).1
  have hdr := drain_removes env w s.tasks (hi.post w) rfl hcb
  refine ⟨OnTimer_eq hi hhas, ?_, rfl, rfl, rfl, rfl, hdr.2, ?_, ?_, ?_⟩
  · intro lp cursor hin
    unfold WndProc
    simp only
    rw [touch_of_live hal, hin, hi.valid_of_hasWindow hhas]
    simp [WM_LBUTTONUP, WM_SETCURSOR, WM_ERASEBKGND, WM_MOUSEMOVE, WM_MOUSELEAVE]
  · simp only [IsNotificationValid, decide_eq_false_iff_not]
    exact hdr.2
  · intro P hc
    exact hdr.2 (List.mem_filter.1 hc).1
  · cases hc : ((runTasks env (s.tasks.length + 1) (s.post (UITask.NotifRemove w))).obj w).alive with
    | false => rfl
    | true =>
      rcases hdr.1.live_reg w hc with h1 | h1
      · exact absurd h1 hdr.2
      · simp at h1

theorem deferred_self_destruction_witness :
    0 ∈ (run [(sampleEnv, Op.showNotification (adHocArgs "x") true)] State.init).gNotifs ∧
    ((run [(sampleEnv, Op.showNotification (adHocArgs "x") true)] State.init).obj 0).wndRemovedCb
      = .notifsRemoveNotification ∧
    OnTimer 0 (run [(sampleEnv, Op.showNotification (adHocArgs "x") true)] State.init)
      = (run [(sampleEnv, Op.showNotification (adHocArgs "x") true)] State.init).post
          (UITask.NotifRemove 0) ∧
    IsNotificationValid 0 (runTasks sampleEnv
      ((run [(sampleEnv, Op.showNotification (adHocArgs "x") true)] State.init).tasks.length + 1)
      ((run [(sampleEnv, Op.showNotification (adHocArgs "x") true)] State.init).post
          (UITask.NotifRemove 0))) = false :=
  have h := deferred_self_destruction
    [(sampleEnv, Op.showNotification (adHocArgs "x") true)] sampleEnv 0 (by decide) (by decide)
  ⟨by decide, by decide, h.1, h.2.2.2.2.2.2.2.1⟩

/-- C8, the code at the failing input: on a registered, highlighted
notification with a timeout of 2000 ms and the text "Saving",
`UpdateNotificationProgress` with the percentage 150 is not rejected: it
returns true, stores 150 in `progressPerc`, replaces the text and resets
`highlight` and `timeoutMs`; with the percentage -5 it stores -5. -/
theorem out_of_range_progress_is_stored :
    IsNotificationValid 0
      (run [(sampleEnv, Op.showNotification (warningArgs "Saving") true)] State.init) = true ∧
    ((run [(sampleEnv, Op.showNotification (warningArgs "Saving") true)] State.init).obj 0).progressPerc
      = -1 ∧
    ((run [(sampleEnv, Op.showNotification (warningArgs "Saving") true)] State.init).obj 0).text
      = "Saving" ∧
    ((run [(sampleEnv, Op.showNotification (warningArgs "Saving") true)] State.init).obj 0).highlight
      = true ∧
    ((run [(sampleEnv, Op.showNotification (warningArgs "Saving") true)] State.init).obj 0).timeoutMs
      = 2000 ∧
    (UpdateNotificationProgress sampleEnv 0 "50%" 150
      (run [(sampleEnv, Op.showNotification (warningArgs "Saving") true)] State.init)).1 = true ∧
    ((UpdateNotificationProgress sampleEnv 0 "50%" 150
      (run [(sampleEnv, Op.showNotification (warningArgs "Saving") true)] State.init)).2.obj
        0).progressPerc = 150 ∧
    ((UpdateNotificationProgress sampleEnv 0 "50%" 150
      (run [(sampleEnv, Op.showNotification (warningArgs "Saving") true)] State.init)).2.obj
        0).text = "50%" ∧
    ((UpdateNotificationProgress sampleEnv 0 "50%" 150
      (run [(sampleEnv, Op.showNotification (warningArgs "Saving") true)] State.init)).2.obj
        0).highlight = false ∧
    ((UpdateNotificationProgress sampleEnv 0 "50%" 150
      (run [(sampleEnv, Op.showNotification (warningArgs "Saving") true)] State.init)).2.obj
        0).timeoutMs = 0 ∧
    ((UpdateNotificationProgress sampleEnv 0 "50%" (-5)
      (run [(sampleEnv, Op.showNotification (warningArgs "Saving") true)] State.init)).2.obj
        0).progressPerc = -5 := by
  decide

/-- C9: in every reachable state, for every pointer `w` and every `perc` in
[0, 100], `UpdateNotificationProgress(w, msg, perc)` returns true exactly when
`w` is in `gNotifs`; in that case `progressPerc` of `w` is `perc` afterwards
and `HasProgress()` is true; when `w` is not in `gNotifs` the call returns
false and the state is unchanged (nothing is written, no access through `w`
is made). -/
theorem progress_update_accepted (ops : List (Env × Op)) (env : Env) (w : Nat) (msg : String)
    (perc : Int) (h0 : 0 ≤ perc) (_h100 : perc ≤ 100) :
    ((UpdateNotificationProgress env w msg perc (run ops State.init)).1 = true ↔
      w ∈ (run ops State.init).gNotifs) ∧
    (w ∈ (run ops State.init).gNotifs →
      ((UpdateNotificationProgress env w msg perc (run ops State.init)).2.obj w).progressPerc
        = perc ∧
      ((UpdateNotificationProgress env w msg perc (run ops State.init)).2.obj w).HasProgress
        = true) ∧
    (w ∉ (run ops State.init).gNotifs →
      UpdateNotificationProgress env w msg perc (run ops State.init)
        = (false, run ops State.init)) := by
  have hi := run_inv ops
  generalize run ops State.init = s at hi
  refine ⟨?_, fun hm => ?_, fun hm => ?_⟩
  · unfold UpdateNotificationProgress
    by_cases hm : w ∈ s.gNotifs <;> simp [IsNotificationValid, hm]
  · have hlt := hi.reg_lt hm
    have hp : ((UpdateNotificationProgress env w msg perc s).2.obj w).progressPerc = perc := by
      unfold UpdateNotificationProgress
      simp only [IsNotificationValid, hm, decide_True, Bool.not_true, Bool.false_eq_true,
        if_false]
      rw [obj_modify, if_pos ⟨rfl, by rw [length_modify, touch_heap]; exact hlt⟩,
        progressPerc_UpdateMessage, obj_modify,
        if_pos ⟨rfl, by rw [touch_heap]; exact hlt⟩]
    refine ⟨hp, ?_⟩
    simp only [NotificationWnd.HasProgress, hp, decide_eq_true_eq]
    exact h0
  · unfold UpdateNotificationProgress
    simp [IsNotificationValid, hm]

theorem progress_update_accepted_witness :
    (0 : Int) ≤ 40 ∧ (40 : Int) ≤ 100 ∧
    ((UpdateNotificationProgress sampleEnv 0 "40%" 40
      (run [(sampleEnv, Op.showNotification (adHocArgs "x") true)] State.init)).1 = true ↔
      0 ∈ (run [(sampleEnv, Op.showNotification (adHocArgs "x") true)] State.init).gNotifs) ∧
    ((UpdateNotificationProgress sampleEnv 0 "40%" 40
      (run [(sampleEnv, Op.showNotification (adHocArgs "x") true)] State.init)).2.obj
        0).progressPerc = 40 :=
  have h := progress_update_accepted
    [(sampleEnv, Op.showNotification (adHocArgs "x") true)] sampleEnv 0 "40%" 40
    (by decide) (by decide)
  ⟨by decide, by decide, h.1, (h.2.1 (by decide)).1⟩

/-- C10: for every notification that has a window of width `W` and every
message, with `dx = padX + textWidth + padX + leftMargin + closeDx + padX` the
required width, the width of the window after `Layout` is `max W dx`: never
less than `W`, and greater than `W` whenever `dx > W`.  The height after
`Layout` is `padY + textHeight + padY`, plus `padY + progressDy + padY` exactly
when `HasProgress()`, whatever the height was before. -/
theorem anti_shrink (env : Env) (msg : String) (w : NotificationWnd)
    (hw : w.hasWindow = true) :
    (w.Layout env msg).pos.dx
      = max w.pos.dx
          (DpiScale env 12 + (env.measureText msg).dx + DpiScale env 12
            + DpiScale env (kCloseLeftMargin - DpiScale env 12) + DpiScale env 16
            + DpiScale env 12) ∧
    w.pos.dx ≤ (w.Layout env msg).pos.dx ∧
    (w.pos.dx < DpiScale env 12 + (env.measureText msg).dx + DpiScale env 12
            + DpiScale env (kCloseLeftMargin - DpiScale env 12) + DpiScale env 16
            + DpiScale env 12 →
      w.pos.dx < (w.Layout env msg).pos.dx) ∧
    (w.Layout env msg).pos.dy
      = DpiScale env 8 + (env.measureText msg).dy + DpiScale env 8
        + (if w.HasProgress then DpiScale env 8 + DpiScale env kProgressDy + DpiScale env 8
           else 0) := by
  obtain ⟨h1, h2⟩ := Layout_size env msg w hw
  rw [h1, h2]
  refine ⟨?_, ?_, ?_, ?_⟩
  · rw [max_def]
    split_ifs <;> omega
  · split_ifs <;> omega
  · intro hlt
    split_ifs <;> omega
  · split_ifs <;> omega

theorem anti_shrink_witness :
    (NotificationWnd.SetWindowSize
        ((NotificationWnd.fresh sampleEnv).Create sampleEnv (adHocArgs "x") true 0) 200 32).hasWindow
      = true ∧
    ((NotificationWnd.SetWindowSize
        ((NotificationWnd.fresh sampleEnv).Create sampleEnv (adHocArgs "x") true 0) 200 32).Layout
      sampleEnv "abc").pos.dx = 200 ∧
    ((NotificationWnd.SetWindowSize
        ((NotificationWnd.fresh sampleEnv).Create sampleEnv (adHocArgs "x") true 0) 200 32).Layout
      sampleEnv "a much longer message than before").pos.dx = 320 :=
  have h := anti_shrink sampleEnv "abc"
    (NotificationWnd.SetWindowSize
      ((NotificationWnd.fresh sampleEnv).Create sampleEnv (adHocArgs "x") true 0) 200 32)
    (by decide)
  ⟨by decide, h.1.trans (by decide), by decide⟩

/-! ## Properties C11 to C20 -/

theorem Layout_rects (env : Env) (msg : String) (w : NotificationWnd) :
    (w.Layout env msg).rTxt
      = ⟨DpiScale env 12, DpiScale env 8, (env.measureText msg).dx, (env.measureText msg).dy⟩ ∧
    (w.Layout env msg).rClose.dx = DpiScale env 16 ∧
    (w.Layout env msg).rClose.x
      = (if DpiScale env 12 + (env.measureText msg).dx + DpiScale env 12
              + (DpiScale env (kCloseLeftMargin - DpiScale env 12) + DpiScale env 16
                + DpiScale env 12) < w.WindowRect.dx
         then DpiScale env 12 + (env.measureText msg).dx + DpiScale env 12
              + DpiScale env (kCloseLeftMargin - DpiScale env 12)
              + (w.WindowRect.dx
                 - (DpiScale env 12 + (env.measureText msg).dx + DpiScale env 12
                    + (DpiScale env (kCloseLeftMargin - DpiScale env 12) + DpiScale env 16
                      + DpiScale env 12)))
         else DpiScale env 12 + (env.measureText msg).dx + DpiScale env 12
              + DpiScale env (kCloseLeftMargin - DpiScale env 12)) := by
  unfold NotificationWnd.Layout NotificationWnd.SetWindowXY NotificationWnd.SetWindowSize
  simp only [apply_ite NotificationWnd.rTxt, apply_ite NotificationWnd.rClose,
    apply_ite Rect.x, apply_ite Rect.dx]
  refine ⟨?_, ?_, ?_⟩
  · simp
  · split_ifs <;> rfl
  · split_ifs <;> rfl

/-- C11: for every notification that has a window, every message and every
current width, after `Layout` the close rectangle ends one `padX` before the
right edge of the window: `rClose.x + rClose.dx + padX` is the final width,
both when the window takes the computed width and when it keeps its wider
current width. -/
theorem close_pinned_right (env : Env) (msg : String) (w : NotificationWnd)
    (hw : w.hasWindow = true) :
    (w.Layout env msg).rClose.x + (w.Layout env msg).rClose.dx + DpiScale env 12
      = (w.Layout env msg).pos.dx ∧
    (DpiScale env 12 + (env.measureText msg).dx + DpiScale env 12
        + DpiScale env (kCloseLeftMargin - DpiScale env 12) + DpiScale env 16
        + DpiScale env 12 < w.pos.dx →
      (w.Layout env msg).pos.dx = w.pos.dx ∧
      (w.Layout env msg).rClose.x + (w.Layout env msg).rClose.dx + DpiScale env 12
        = w.pos.dx) ∧
    (¬ (DpiScale env 12 + (env.measureText msg).dx + DpiScale env 12
        + DpiScale env (kCloseLeftMargin - DpiScale env 12) + DpiScale env 16
        + DpiScale env 12 < w.pos.dx) →
      (w.Layout env msg).pos.dx
        = DpiScale env 12 + (env.measureText msg).dx + DpiScale env 12
          + DpiScale env (kCloseLeftMargin - DpiScale env 12) + DpiScale env 16
          + DpiScale env 12 ∧
      (w.Layout env msg).rClose.x + (w.Layout env msg).rClose.dx + DpiScale env 12
        = DpiScale env 12 + (env.measureText msg).dx + DpiScale env 12
          + DpiScale env (kCloseLeftMargin - DpiScale env 12) + DpiScale env 16
          + DpiScale env 12) := by
  obtain ⟨_, h2, h3⟩ := Layout_rects env msg w
  obtain ⟨h4, _⟩ := Layout_size env msg w hw
  have hr : w.WindowRect.dx = w.pos.dx := by simp [NotificationWnd.WindowRect, hw]
  rw [hr] at h3
  rw [h2, h3, h4]
  refine ⟨?_, ?_, ?_⟩
  · split_ifs <;> omega
  · intro hlt
    split_ifs <;> omega
  · intro hlt
    split_ifs <;> omega

theorem close_pinned_right_witness :
    (NotificationWnd.SetWindowSize
        ((NotificationWnd.fresh sampleEnv).Create sampleEnv (adHocArgs "x") true 0) 200 32).hasWindow
      = true ∧
    ((NotificationWnd.SetWindowSize
        ((NotificationWnd.fresh sampleEnv).Create sampleEnv (adHocArgs "x") true 0) 200 32).Layout
      sampleEnv "abc").rClose = ⟨172, 9, 16, 18⟩ ∧
    ((NotificationWnd.SetWindowSize
        ((NotificationWnd.fresh sampleEnv).Create sampleEnv (adHocArgs "x") true 0) 200 32).Layout
      sampleEnv "abc").rClose.x
      + ((NotificationWnd.SetWindowSize
        ((NotificationWnd.fresh sampleEnv).Create sampleEnv (adHocArgs "x") true 0) 200 32).Layout
      sampleEnv "abc").rClose.dx + DpiScale sampleEnv 12
      = ((NotificationWnd.SetWindowSize
        ((NotificationWnd.fresh sampleEnv).Create sampleEnv (adHocArgs "x") true 0) 200 32).Layout
      sampleEnv "abc").pos.dx :=
  ⟨by decide, by decide,
   (close_pinned_right sampleEnv "abc"
      (NotificationWnd.SetWindowSize
        ((NotificationWnd.fresh sampleEnv).Create sampleEnv (adHocArgs "x") true 0) 200 32)
      (by decide)).1⟩

/-- C12, the code at the failing input: at 288 DPI `padX` is 36 and
`leftMargin = DpiScale(kCloseLeftMargin - padX)` is `DpiScale(-20) = -60`, so
for a new notification with the text "abc" (24 pixels wide) `Layout` puts the
text rectangle at 36..60 and the close rectangle at `rClose.x = 36`: the close
rectangle starts left of the right end of the text. -/
theorem close_overlaps_text_at_288_dpi :
    (96 : Int) ≤ sampleEnv288.dpi ∧
    0 ≤ (sampleEnv288.measureText "abc").dx ∧
    DpiScale sampleEnv288 12 = 36 ∧
    DpiScale sampleEnv288 (kCloseLeftMargin - DpiScale sampleEnv288 12) = -60 ∧
    ((NotificationWnd.fresh sampleEnv288).Create sampleEnv288 (adHocArgs "abc") true 0).rTxt
      = ⟨36, 24, 24, 16⟩ ∧
    ((NotificationWnd.fresh sampleEnv288).Create sampleEnv288 (adHocArgs "abc") true 0).rClose.x
      = 36 ∧
    ((NotificationWnd.fresh sampleEnv288).Create sampleEnv288 (adHocArgs "abc") true 0).rClose.x
      < ((NotificationWnd.fresh sampleEnv288).Create sampleEnv288 (adHocArgs "abc") true 0).rTxt.x
        + ((NotificationWnd.fresh sampleEnv288).Create sampleEnv288 (adHocArgs "abc") true
            0).rTxt.dx := by
  decide

theorem relayoutLoop_spec (env : Env) (frame : Rect) (m p : Int) (wnds : List Nat) (y : Int)
    (s : State) (hnd : wnds.Nodup)
    (hlive : ∀ w ∈ wnds, (s.obj w).alive = true ∧ (s.obj w).hwnd = .notif w) :
    (relayoutLoop env frame m p wnds y s).staleReads = s.staleReads ∧
    (∀ k, k ∉ wnds → (relayoutLoop env frame m p wnds y s).obj k = s.obj k) ∧
    (∀ (i w : Nat), wnds[i]? = some w →
      (relayoutLoop env frame m p wnds y s).obj w
        = { s.obj w with pos :=
            ⟨if env.isRtl then frame.dx - (s.obj w).pos.dx - m - env.cxVScroll else m,
             y + ((wnds.take i).map (fun v => (s.obj v).pos.dy + p)).sum,
             (s.obj w).pos.dx, (s.obj w).pos.dy⟩ }) := by
  induction wnds generalizing y s with
  | nil => simp [relayoutLoop]
  | cons a t ih =>
    obtain ⟨hal, hh⟩ := hlive a (List.mem_cons_self _ _)
    have hnd2 := List.nodup_cons.1 hnd
    have hhas : (s.obj a).hasWindow = true := by simp [NotificationWnd.hasWindow, hal, hh]
    have hlt := alive_lt hal
    have hrect : WindowRect env s (s.obj a).hwnd = (s.obj a).pos := by
      rw [hh]; simp [WindowRect, NotificationWnd.WindowRect, hhas]
    have hstep : relayoutLoop env frame m p (a :: t) y s
        = relayoutLoop env frame m p t (y + ((s.obj a).pos.dy + p))
            (s.modify a (fun w => w.SetWindowXY
              (if env.isRtl then frame.dx - (s.obj a).pos.dx - m - env.cxVScroll else m) y)) := by
      simp only [relayoutLoop]
      rw [touch_of_live hal, hrect, hh]
      rfl
    have hobj : ∀ k, (s.modify a (fun w => w.SetWindowXY
        (if env.isRtl then frame.dx - (s.obj a).pos.dx - m - env.cxVScroll else m) y)).obj k
        = if k = a then { s.obj a with pos :=
            ⟨if env.isRtl then frame.dx - (s.obj a).pos.dx - m - env.cxVScroll else m, y,
             (s.obj a).pos.dx, (s.obj a).pos.dy⟩ } else s.obj k := by
      intro k
      rw [obj_modify]
      by_cases hk : k = a
      · subst hk
        simp [hlt, NotificationWnd.SetWindowXY, hhas]
      · simp [hk]
    have hold : ∀ w ∈ t, (s.modify a (fun w => w.SetWindowXY
        (if env.isRtl then frame.dx - (s.obj a).pos.dx - m - env.cxVScroll else m) y)).obj w
        = s.obj w := by
      intro w hw
      have : w ≠ a := fun e => hnd2.1 (e ▸ hw)
      rw [hobj, if_neg this]
    have hlive2 : ∀ w ∈ t, ((s.modify a (fun w => w.SetWindowXY
        (if env.isRtl then frame.dx - (s.obj a).pos.dx - m - env.cxVScroll else m) y)).obj
          w).alive = true ∧
        ((s.modify a (fun w => w.SetWindowXY
        (if env.isRtl then frame.dx - (s.obj a).pos.dx - m - env.cxVScroll else m) y)).obj
          w).hwnd = .notif w := by
      intro w hw
      rw [hold w hw]
      exact hlive w (List.mem_cons_of_mem _ hw)
    obtain ⟨ih1, ih2, ih3⟩ := ih (y + ((s.obj a).pos.dy + p)) _ hnd2.2 hlive2
    rw [hstep]
    refine ⟨?_, ?_, ?_⟩
    · rw [ih1]; rfl
    · intro k hk
      have hka : k ≠ a := fun e => hk (e ▸ List.mem_cons_self _ _)
      have hkt : k ∉ t := fun e => hk (List.mem_cons_of_mem _ e)
      rw [ih2 k hkt, hobj, if_neg hka]
    · intro i w hiw
      cases i with
      | zero =>
        simp only [List.getElem?_cons_zero, Option.some.injEq] at hiw
        subst hiw
        rw [ih2 a hnd2.1, hobj, if_pos rfl]
        simp
      | succ i =>
        simp only [List.getElem?_cons_succ] at hiw
        have hwt : w ∈ t := List.getElem?_mem hiw
        rw [ih3 i w hiw, hold w hwt]
        have hsum : ((t.take i).map (fun v => ((s.modify a (fun w => w.SetWindowXY
            (if env.isRtl then frame.dx - (s.obj a).pos.dx - m - env.cxVScroll else m) y)).obj
              v).pos.dy + p)).sum
            = ((t.take i).map (fun v => (s.obj v).pos.dy + p)).sum := by
          congr 1
          apply List.map_congr_left
          intro v hv
          rw [hold v (List.mem_of_mem_take hv)]
        rw [hsum]
        simp only [List.take_succ_cons, List.map_cons, List.sum_cons]
        congr 2
        omega

theorem InvX.GetForHwnd_eq {d : Bool} {extra : List Nat} {s : State} (hi : InvX d extra s)
    (env : Env) (P : HWND) : GetForHwnd env P s = (notifsOf s P, s) :=
  Prod.ext (hi.GetForHwnd_fst env P) (hi.GetForHwnd_snd env P)

theorem InvX.Relayout_eq {d : Bool} {extra : List Nat} {s : State} (hi : InvX d extra s)
    (env : Env) (hwnd : HWND) :
    RelayoutNotifications env hwnd s
      = relayoutLoop env (env.clientRect (HwndGetParent env s hwnd))
          (DpiScale env kTopLeftMargin) (DpiScale env kPadding)
          (notifsOf s (HwndGetParent env s hwnd)) (DpiScale env kTopLeftMargin) s := by
  unfold RelayoutNotifications
  simp only
  rw [hi.GetForHwnd_eq]
  simp only
  cases hn : notifsOf s (HwndGetParent env s hwnd) with
  | nil => simp [relayoutLoop]
  | cons first rest =>
    simp only
    have hmem : first ∈ notifsOf s (HwndGetParent env s hwnd) := by rw [hn]; simp
    have hreg : first ∈ s.gNotifs := (List.mem_filter.1 hmem).1
    have hpar : (s.obj first).parent = HwndGetParent env s hwnd := by
      simpa using (List.mem_filter.1 hmem).2
    rw [touch_of_live (hi.reg_live first hreg).1, hi.parent_eq env hreg, hpar]

theorem stackY_succ (env : Env) (s : State) (wnds : List Nat) (i a : Nat)
    (ha : wnds[i]? = some a) :
    stackY env s wnds (i + 1) = stackY env s wnds i + (s.obj a).pos.dy + DpiScale env kPadding := by
  unfold stackY
  rw [List.take_succ, ha]
  simp only [Option.toList, List.map_append, List.sum_append, List.map_cons, List.map_nil,
    List.sum_cons, List.sum_nil]
  omega

theorem InvX.Relayout_spec {d : Bool} {extra : List Nat} {s : State} (hi : InvX d extra s)
    (env : Env) (hwnd : HWND) :
    (RelayoutNotifications env hwnd s).staleReads = s.staleReads ∧
    (∀ k, k ∉ notifsOf s (HwndGetParent env s hwnd) →
      (RelayoutNotifications env hwnd s).obj k = s.obj k) ∧
    (∀ (i w : Nat), (notifsOf s (HwndGetParent env s hwnd))[i]? = some w →
      (RelayoutNotifications env hwnd s).obj w
        = { s.obj w with pos :=
            ⟨stackX env (env.clientRect (HwndGetParent env s hwnd)) (s.obj w).pos.dx,
             stackY env s (notifsOf s (HwndGetParent env s hwnd)) i,
             (s.obj w).pos.dx, (s.obj w).pos.dy⟩ }) := by
  rw [hi.Relayout_eq]
  exact relayoutLoop_spec env _ _ _ _ _ s (hi.nodup.filter _)
    (fun w hw => hi.reg_live w (List.mem_filter.1 hw).1)

/-- C13: in every reachable state, let `P` be the parent that
`RelayoutNotifications(hwnd)` works on and `w_0 .. w_(n-1)` the notifications
of `P` in registry order.  After the call the registry order is unchanged, no
window has changed its size, `w_i` is at `y_i = DpiScale(kTopLeftMargin)` plus
the heights and paddings of the notifications before it, so `w_0` is at
`DpiScale(kTopLeftMargin)` and `y_(i+1) = y_i + h_i + DpiScale(kPadding)`, in
either text direction; `x_i` is `DpiScale(kTopLeftMargin)` in left-to-right
mode and the container width less the width of `w_i`, the margin and the
scrollbar width in right-to-left mode. -/
theorem stacking_layout (ops : List (Env × Op)) (env : Env) (hwnd : HWND) :
    (RelayoutNotifications env hwnd (run ops State.init)).gNotifs
      = (run ops State.init).gNotifs ∧
    (∀ k, ((RelayoutNotifications env hwnd (run ops State.init)).obj k).pos.dx
          = ((run ops State.init).obj k).pos.dx ∧
        ((RelayoutNotifications env hwnd (run ops State.init)).obj k).pos.dy
          = ((run ops State.init).obj k).pos.dy) ∧
    (∀ (i w : Nat),
      (notifsOf (run ops State.init) (HwndGetParent env (run ops State.init) hwnd))[i]?
        = some w →
      ((RelayoutNotifications env hwnd (run ops State.init)).obj w).pos.y
        = stackY env (run ops State.init)
            (notifsOf (run ops State.init) (HwndGetParent env (run ops State.init) hwnd)) i ∧
      ((RelayoutNotifications env hwnd (run ops State.init)).obj w).pos.x
        = stackX env (env.clientRect (HwndGetParent env (run ops State.init) hwnd))
            ((RelayoutNotifications env hwnd (run ops State.init)).obj w).pos.dx) ∧
    (∀ (w : Nat),
      (notifsOf (run ops State.init) (HwndGetParent env (run ops State.init) hwnd))[0]?
        = some w →
      ((RelayoutNotifications env hwnd (run ops State.init)).obj w).pos.y
        = DpiScale env kTopLeftMargin) ∧
    (∀ (i a b : Nat),
      (notifsOf (run ops State.init) (HwndGetParent env (run ops State.init) hwnd))[i]?
        = some a →
      (notifsOf (run ops State.init) (HwndGetParent env (run ops State.init) hwnd))[i + 1]?
        = some b →
      ((RelayoutNotifications env hwnd (run ops State.init)).obj b).pos.y
        = ((RelayoutNotifications env hwnd (run ops State.init)).obj a).pos.y
          + ((RelayoutNotifications env hwnd (run ops State.init)).obj a).pos.dy
          + DpiScale env kPadding) ∧
    (env.isRtl = false →
      ∀ w ∈ notifsOf (run ops State.init) (HwndGetParent env (run ops State.init) hwnd),
        ((RelayoutNotifications env hwnd (run ops State.init)).obj w).pos.x
          = DpiScale env kTopLeftMargin) ∧
    (env.isRtl = true →
      ∀ w ∈ notifsOf (run ops State.init) (HwndGetParent env (run ops State.init) hwnd),
        ((RelayoutNotifications env hwnd (run ops State.init)).obj w).pos.x
          = (env.clientRect (HwndGetParent env (run ops State.init) hwnd)).dx
            - ((RelayoutNotifications env hwnd (run ops State.init)).obj w).pos.dx
            - DpiScale env kTopLeftMargin - env.cxVScroll) := by
  have hi := run_inv ops
  generalize run ops State.init = s at hi
  obtain ⟨_, _, h3⟩ := hi.Relayout_spec env hwnd
  have hy : ∀ (i w : Nat), (notifsOf s (HwndGetParent env s hwnd))[i]? = some w →
      ((RelayoutNotifications env hwnd s).obj w).pos.y
        = stackY env s (notifsOf s (HwndGetParent env s hwnd)) i := by
    intro i w hw; rw [h3 i w hw]
  have hx : ∀ (i w : Nat), (notifsOf s (HwndGetParent env s hwnd))[i]? = some w →
      ((RelayoutNotifications env hwnd s).obj w).pos.x
        = stackX env (env.clientRect (HwndGetParent env s hwnd))
            ((RelayoutNotifications env hwnd s).obj w).pos.dx := by
    intro i w hw; rw [h3 i w hw]
  have hdy : ∀ (i w : Nat), (notifsOf s (HwndGetParent env s hwnd))[i]? = some w →
      ((RelayoutNotifications env hwnd s).obj w).pos.dy = (s.obj w).pos.dy := by
    intro i w hw; rw [h3 i w hw]
  refine ⟨(sameCore_Relayout env hwnd s).gNotifs_eq, fun k => ?_, fun i w hw => ⟨hy i w hw, hx i w hw⟩,
    fun w hw => ?_, fun i a b ha hb => ?_, fun hr w hw => ?_, fun hr w hw => ?_⟩
  · have := sameLook_Relayout env hwnd s k
    exact ⟨congrArg Look.dx this, congrArg Look.dy this⟩
  · rw [hy 0 w hw]; simp [stackY]
  · rw [hy (i + 1) b hb, hy i a ha, hdy i a ha, stackY_succ env s _ i a ha]
  · obtain ⟨i, hiw⟩ := List.getElem?_of_mem hw
    rw [hx i w hiw]; simp [stackX, hr]
  · obtain ⟨i, hiw⟩ := List.getElem?_of_mem hw
    rw [hx i w hiw]; simp [stackX, hr]

theorem State.ext_obj {a b : State} (hl : a.heap.length = b.heap.length)
    (ho : ∀ k, a.obj k = b.obj k) (hg : a.gNotifs = b.gNotifs) (ht : a.tasks = b.tasks)
    (hd : a.deleted = b.deleted) (hs : a.staleReads = b.staleReads) : a = b := by
  have hh : a.heap = b.heap := by
    apply List.ext_getElem hl
    intro k h1 h2
    have := ho k
    rw [obj_eq_getElem h1, obj_eq_getElem h2] at this
    exact this
  cases a; cases b
  simp_all

theorem HwndGetParent_sameCore (env : Env) {s s' : State} (h : SameCore s s') (hwnd : HWND) :
    HwndGetParent env s' hwnd = HwndGetParent env s hwnd := by
  cases hwnd with
  | null => rfl
  | host n => rfl
  | notif k =>
    have hc := h.core_eq k
    have h1 : (s'.obj k).alive = (s.obj k).alive := congrArg Core.alive hc
    have h2 : (s'.obj k).hwnd = (s.obj k).hwnd := congrArg Core.hwnd hc
    have h3 : (s'.obj k).parent = (s.obj k).parent := congrArg Core.parent hc
    simp [HwndGetParent, NotificationWnd.hasWindow, h1, h2, h3]

theorem notifsOf_sameCore {s s' : State} (h : SameCore s s') (P : HWND) :
    notifsOf s' P = notifsOf s P := by
  unfold notifsOf
  rw [h.gNotifs_eq]
  apply List.filter_congr
  intro k _
  have h3 : (s'.obj k).parent = (s.obj k).parent := congrArg Core.parent (h.core_eq k)
  rw [h3]

theorem stackY_sameLook (env : Env) {s s' : State} (h : SameLook s s') (wnds : List Nat)
    (i : Nat) : stackY env s' wnds i = stackY env s wnds i := by
  unfold stackY
  congr 2
  apply List.map_congr_left
  intro v _
  have : (s'.obj v).pos.dy = (s.obj v).pos.dy := congrArg Look.dy (h v)
  rw [this]

/-- C14: in every reachable state, for every container size and text
direction (the environment `env`), a second `RelayoutNotifications` right
after the first, with the same environment and no other operation in between,
changes nothing: every notification has the same rectangle, position and size,
as after the first call; the whole state is the same. -/
theorem relayout_idempotent (ops : List (Env × Op)) (env : Env) (hwnd : HWND) :
    RelayoutNotifications env hwnd (RelayoutNotifications env hwnd (run ops State.init))
      = RelayoutNotifications env hwnd (run ops State.init) ∧
    ∀ k, ((RelayoutNotifications env hwnd
            (RelayoutNotifications env hwnd (run ops State.init))).obj k).pos
          = ((RelayoutNotifications env hwnd (run ops State.init)).obj k).pos := by
  have hi := run_inv ops
  generalize run ops State.init = s at hi
  have hsc := sameCore_Relayout env hwnd s
  have hsl := sameLook_Relayout env hwnd s
  have hi1 := hi.sameCore hsc
  obtain ⟨_, a2, a3⟩ := hi.Relayout_spec env hwnd
  obtain ⟨b1, b2, b3⟩ := hi1.Relayout_spec env hwnd
  rw [HwndGetParent_sameCore env hsc, notifsOf_sameCore hsc] at b2 b3
  have hobj : ∀ k, (RelayoutNotifications env hwnd (RelayoutNotifications env hwnd s)).obj k
      = (RelayoutNotifications env hwnd s).obj k := by
    intro k
    by_cases hk : k ∈ notifsOf s (HwndGetParent env s hwnd)
    · obtain ⟨i, hik⟩ := List.getElem?_of_mem hk
      rw [b3 i k hik, stackY_sameLook env hsl, a3 i k hik]
    · exact b2 k hk
  have hsc2 := sameCore_Relayout env hwnd (RelayoutNotifications env hwnd s)
  have heq : RelayoutNotifications env hwnd (RelayoutNotifications env hwnd s)
      = RelayoutNotifications env hwnd s :=
    State.ext_obj hsc2.len hobj hsc2.gNotifs_eq hsc2.tasks hsc2.deleted_eq b1
  exact ⟨heq, fun k => by rw [hobj]⟩

theorem InvX.removeGroup_killed {d : Bool} {s : State} (hi : InvX d [] s) (env : Env) (P : HWND)
    (G : Kind) :
    (NotifsRemoveForGroup env (GetForHwnd env P s).1 G (GetForHwnd env P s).2).1
      = (s.gNotifs.filter (fun h => (s.obj h).parent == P && (s.obj h).groupId == G)).length ∧
    Killed (s.gNotifs.filter (fun h => (s.obj h).parent == P && (s.obj h).groupId == G)) s
      (NotifsRemoveForGroup env (GetForHwnd env P s).1 G (GetForHwnd env P s).2).2 := by
  rw [hi.GetForHwnd_fst, hi.GetForHwnd_snd]
  have hrm := hi.removeForGroup env (s.gNotifs.filter (fun h => (s.obj h).parent == P)) G
    (fun h hh => (List.mem_filter.1 hh).1) (hi.nodup.filter _)
  have e : (s.gNotifs.filter (fun h => (s.obj h).parent == P)).filter
      (fun wnd => (s.obj wnd).groupId == G)
      = s.gNotifs.filter (fun h => (s.obj h).parent == P && (s.obj h).groupId == G) := by
    rw [List.filter_filter]
    apply List.filter_congr
    intro k _
    rw [Bool.and_comm]
  rw [e] at hrm
  exact hrm

/-- C15: in every reachable state, for every parent `P` and non-null group
`G`, `NotifsRemoveForGroup` on the notifications of `P` returns the number of
registry entries with parent `P` and group `G`; afterwards the registry is the
old one without exactly those entries (the others keep their order, no entry
with `(P, G)` is left), each removed notification was live and never deleted
before and is deleted exactly once, and `RemoveNotificationsForGroup(P, G)`
does the same and returns true exactly when that number is positive. -/
theorem group_clearing (ops : List (Env × Op)) (env : Env) (P : HWND) (G : Kind)
    (_hG : G ≠ none) :
    (NotifsRemoveForGroup env (GetForHwnd env P (run ops State.init)).1 G
        (GetForHwnd env P (run ops State.init)).2).1
      = ((run ops State.init).gNotifs.filter (fun h =>
          ((run ops State.init).obj h).parent == P &&
          ((run ops State.init).obj h).groupId == G)).length ∧
    (RemoveNotificationsForGroup env P G (run ops State.init)).2
      = (NotifsRemoveForGroup env (GetForHwnd env P (run ops State.init)).1 G
          (GetForHwnd env P (run ops State.init)).2).2 ∧
    (RemoveNotificationsForGroup env P G (run ops State.init)).2.gNotifs
      = (run ops State.init).gNotifs.filter (fun h =>
          !(((run ops State.init).obj h).parent == P &&
            ((run ops State.init).obj h).groupId == G)) ∧
    (∀ h ∈ (RemoveNotificationsForGroup env P G (run ops State.init)).2.gNotifs,
      ¬ (((RemoveNotificationsForGroup env P G (run ops State.init)).2.obj h).parent = P ∧
         ((RemoveNotificationsForGroup env P G (run ops State.init)).2.obj h).groupId = G)) ∧
    (∀ h ∈ (run ops State.init).gNotifs,
      ((run ops State.init).obj h).parent = P → ((run ops State.init).obj h).groupId = G →
      ((run ops State.init).obj h).alive = true ∧
      (run ops State.init).deleted.count h = 0 ∧
      ((RemoveNotificationsForGroup env P G (run ops State.init)).2.obj h).alive = false ∧
      (RemoveNotificationsForGroup env P G (run ops State.init)).2.deleted.count h = 1) ∧
    ((RemoveNotificationsForGroup env P G (run ops State.init)).1 = true ↔
      0 < ((run ops State.init).gNotifs.filter (fun h =>
          ((run ops State.init).obj h).parent == P &&
          ((run ops State.init).obj h).groupId == G)).length) := by
  have hi := run_inv ops
  have hi' := RemoveNotificationsForGroup_inv env P G hi
  generalize run ops State.init = s at hi hi'
  obtain ⟨hn, hk⟩ := hi.removeGroup_killed env P G
  have hst : (RemoveNotificationsForGroup env P G s).2
      = (NotifsRemoveForGroup env (GetForHwnd env P s).1 G (GetForHwnd env P s).2).2 := rfl
  have hres : (RemoveNotificationsForGroup env P G s).1
      = decide ((NotifsRemoveForGroup env (GetForHwnd env P s).1 G (GetForHwnd env P s).2).1
          > 0) := rfl
  rw [hst] at hi' ⊢
  rw [hres, hn]
  generalize (NotifsRemoveForGroup env (GetForHwnd env P s).1 G (GetForHwnd env P s).2).2 = s'
    at hk hi'
  have hmem : ∀ h, h ∈ s.gNotifs.filter (fun h => (s.obj h).parent == P && (s.obj h).groupId == G)
      ↔ h ∈ s.gNotifs ∧ (s.obj h).parent = P ∧ (s.obj h).groupId = G := by
    intro h; simp [List.mem_filter]
  refine ⟨rfl, rfl, ?_, ?_, ?_, by simp⟩
  · rw [hk.gNotifs]
    apply List.filter_congr
    intro h hh
    by_cases hc : (s.obj h).parent = P ∧ (s.obj h).groupId = G
    · have : h ∈ s.gNotifs.filter
          (fun h => (s.obj h).parent == P && (s.obj h).groupId == G) := (hmem h).2 ⟨hh, hc⟩
      simp [this, hc.1, hc.2]
    · have : h ∉ s.gNotifs.filter
          (fun h => (s.obj h).parent == P && (s.obj h).groupId == G) :=
        fun hm => hc ((hmem h).1 hm).2
      simp only [this, not_false_eq_true, decide_True]
      rw [not_and_or] at hc
      rcases hc with h3 | h3 <;> simp [h3]
  · intro h hh hc
    obtain ⟨h1, h2⟩ := (hk.mem_gNotifs h).1 hh
    rw [hk.parent_after, hk.groupId_after] at hc
    exact h2 ((hmem h).2 ⟨h1, hc⟩)
  · intro h hh hp hg
    have hin := (hmem h).2 ⟨hh, hp, hg⟩
    have hal := (hi.reg_live h hh).1
    have hnd : h ∉ s.deleted := by
      intro hc
      have := ((hi.deleted_iff h).1 hc).2
      rw [hal] at this
      exact Bool.noConfusion this
    refine ⟨hal, List.count_eq_zero.2 hnd, ?_, ?_⟩
    · rw [hk.alive_after, if_pos hin]
    · apply List.count_eq_one_of_mem hi'.deleted_nodup
      rw [hk.deleted]
      exact List.mem_append_right _ hin

theorem group_clearing_witness :
    kNotifPageInfo ≠ none ∧
    (RemoveNotificationsForGroup sampleEnv (HWND.host 1) kNotifPageInfo
      (run [(sampleEnv, Op.showNotification (adHocArgs "a") true),
            (sampleEnv, Op.showNotification (pageInfoArgs "Page 1/10") true),
            (sampleEnv, Op.showNotification (adHocArgs "b") true)] State.init)).1 = true ∧
    (RemoveNotificationsForGroup sampleEnv (HWND.host 1) kNotifPageInfo
      (run [(sampleEnv, Op.showNotification (adHocArgs "a") true),
            (sampleEnv, Op.showNotification (pageInfoArgs "Page 1/10") true),
            (sampleEnv, Op.showNotification (adHocArgs "b") true)] State.init)).2.gNotifs
      = [0, 2] ∧
    (NotifsRemoveForGroup sampleEnv
      (GetForHwnd sampleEnv (HWND.host 1)
        (run [(sampleEnv, Op.showNotification (adHocArgs "a") true),
            (sampleEnv, Op.showNotification (pageInfoArgs "Page 1/10") true),
            (sampleEnv, Op.showNotification (adHocArgs "b") true)] State.init)).1
      kNotifPageInfo
      (GetForHwnd sampleEnv (HWND.host 1)
        (run [(sampleEnv, Op.showNotification (adHocArgs "a") true),
            (sampleEnv, Op.showNotification (pageInfoArgs "Page 1/10") true),
            (sampleEnv, Op.showNotification (adHocArgs "b") true)] State.init)).2).1
      = ((run [(sampleEnv, Op.showNotification (adHocArgs "a") true),
            (sampleEnv, Op.showNotification (pageInfoArgs "Page 1/10") true),
            (sampleEnv, Op.showNotification (adHocArgs "b") true)] State.init).gNotifs.filter
          (fun h =>
            ((run [(sampleEnv, Op.showNotification (adHocArgs "a") true),
              (sampleEnv, Op.showNotification (pageInfoArgs "Page 1/10") true),
              (sampleEnv, Op.showNotification (adHocArgs "b") true)] State.init).obj h).parent
              == HWND.host 1 &&
            ((run [(sampleEnv, Op.showNotification (adHocArgs "a") true),
              (sampleEnv, Op.showNotification (pageInfoArgs "Page 1/10") true),
              (sampleEnv, Op.showNotification (adHocArgs "b") true)] State.init).obj h).groupId
              == kNotifPageInfo)).length :=
  ⟨by decide, by decide, by decide,
   (group_clearing
      [(sampleEnv, Op.showNotification (adHocArgs "a") true),
       (sampleEnv, Op.showNotification (pageInfoArgs "Page 1/10") true),
       (sampleEnv, Op.showNotification (adHocArgs "b") true)]
      sampleEnv (HWND.host 1) kNotifPageInfo (by decide)).1⟩

/-- C16, the code at the failing input: `if (WM_LBUTTONUP)` tests the
constant, not the message.  A `WM_LBUTTONDOWN` whose point (40, 12) lies in the
close rectangle (36, 9, 16, 18) of the registered notification 0 is not one of
the messages handled before, so `WndProc` posts the removal task and returns
0, although no button was released. -/
theorem button_down_schedules_removal :
    WM_LBUTTONDOWN ≠ WM_LBUTTONUP ∧
    ((run [(sampleEnv, Op.showNotification (adHocArgs "x") true)] State.init).obj 0).rClose
      = ⟨36, 9, 16, 18⟩ ∧
    (⟨GET_X_LPARAM (MAKELPARAM 40 12), GET_Y_LPARAM (MAKELPARAM 40 12)⟩ : Point) = ⟨40, 12⟩ ∧
    (run [(sampleEnv, Op.showNotification (adHocArgs "x") true)] State.init).tasks = [] ∧
    WndProc 0 WM_LBUTTONDOWN (MAKELPARAM 40 12) ⟨0, 0⟩
        (run [(sampleEnv, Op.showNotification (adHocArgs "x") true)] State.init)
      = (some 0, (run [(sampleEnv, Op.showNotification (adHocArgs "x") true)] State.init).post
          (UITask.NotifRemove 0)) ∧
    (run [(sampleEnv, Op.showNotification (adHocArgs "x") true),
          (sampleEnv, Op.message 0 WM_LBUTTONDOWN (MAKELPARAM 40 12) ⟨0, 0⟩)]
        State.init).tasks = [UITask.NotifRemove 0] ∧
    (run [(sampleEnv, Op.showNotification (adHocArgs "x") true),
          (sampleEnv, Op.message 0 WM_LBUTTONDOWN (MAKELPARAM 40 12) ⟨0, 0⟩),
          (sampleEnv, Op.runTask)] State.init).gNotifs = [] := by
  decide

/-- C17, the code at the failing input: notification 0 is created with a
timeout of 2000 ms, so its timer is set.  `UpdateMessage("done", 0, false)`
stores the text, the highlight flag and `timeoutMs = 0`, but it only calls
`SetTimer` when the timeout is not 0 and never stops the timer: the timer of
2000 ms is still set, it fires, and the posted task removes the notification
that was meant to stay. -/
theorem zero_timeout_keeps_old_timer :
    ((run [(sampleEnv, Op.showNotification (warningArgs "Saving") true)] State.init).obj
        0).timer = some 2000 ∧
    ((NotificationUpdateMessage sampleEnv 0 "done" 0 false
        (run [(sampleEnv, Op.showNotification (warningArgs "Saving") true)] State.init)).obj
        0).text = "done" ∧
    ((NotificationUpdateMessage sampleEnv 0 "done" 0 false
        (run [(sampleEnv, Op.showNotification (warningArgs "Saving") true)] State.init)).obj
        0).highlight = false ∧
    ((NotificationUpdateMessage sampleEnv 0 "done" 0 false
        (run [(sampleEnv, Op.showNotification (warningArgs "Saving") true)] State.init)).obj
        0).timeoutMs = 0 ∧
    ((NotificationUpdateMessage sampleEnv 0 "done" 0 false
        (run [(sampleEnv, Op.showNotification (warningArgs "Saving") true)] State.init)).obj
        0).timer = some 2000 ∧
    (run [(sampleEnv, Op.showNotification (warningArgs "Saving") true),
          (sampleEnv, Op.notificationUpdateMessage 0 "done" 0 false),
          (sampleEnv, Op.timer 0)] State.init).tasks = [UITask.NotifRemove 0] ∧
    (run [(sampleEnv, Op.showNotification (warningArgs "Saving") true),
          (sampleEnv, Op.notificationUpdateMessage 0 "done" 0 false),
          (sampleEnv, Op.timer 0), (sampleEnv, Op.runTask)] State.init).gNotifs = [] ∧
    ((NotificationUpdateMessage sampleEnv 0 "done" 500 false
        (run [(sampleEnv, Op.showNotification (warningArgs "Saving") true)] State.init)).obj
        0).timer = some 500 := by
  decide

theorem limitValue_range (v : Int) : 0 ≤ limitValue v 0 100 ∧ limitValue v 0 100 ≤ 100 := by
  unfold limitValue
  split_ifs <;> omega

theorem CalcPerc_eq (current total : Int) :
    CalcPerc current total
      = some (limitValue ((wrap32 (100 * current)).tdiv (if total ≤ 0 then 1 else total))
          0 100) := by
  have hpos : 0 < (if total ≤ 0 then 1 else total) := by split_ifs <;> omega
  unfold CalcPerc idiv32
  simp only
  rw [if_neg (by omega), if_neg (by omega)]

/-- C18: for every pair of integers `(current, total)`, so for every pair of
32-bit integers, also with `total <= 0` or `current < 0`, `CalcPerc` divides
by a positive number (`total`, or 1 when `total <= 0`), so the division does
not fault, and it returns a value between 0 and 100. -/
theorem CalcPerc_range (current total : Int) :
    0 < (if total ≤ 0 then 1 else total) ∧
    idiv32 (wrap32 (100 * current)) (if total ≤ 0 then 1 else total) ≠ none ∧
    ∃ p, CalcPerc current total = some p ∧ 0 ≤ p ∧ p ≤ 100 := by
  have hpos : 0 < (if total ≤ 0 then 1 else total) := by split_ifs <;> omega
  refine ⟨hpos, ?_, _, CalcPerc_eq current total, limitValue_range _⟩
  unfold idiv32
  rw [if_neg (by omega), if_neg (by omega)]
  simp

theorem wrap32_of_range {x : Int} (h1 : INT_MIN ≤ x) (h2 : x ≤ INT_MAX) : wrap32 x = x := by
  unfold INT_MIN at h1
  unfold INT_MAX at h2
  unfold wrap32
  rw [Int.emod_eq_of_lt (by omega) (by omega)]
  omega

theorem CalcPerc_exact_of_no_overflow (current total : Int) (h0 : 0 ≤ current)
    (hct : current ≤ total) (ht : 0 < total) (hno : 100 * current ≤ INT_MAX) :
    CalcPerc current total = some (100 * current / total) := by
  rw [CalcPerc_eq, if_neg (by omega), wrap32_of_range (by unfold INT_MIN; omega) hno,
    Int.tdiv_eq_ediv (by omega) (by omega)]
  have hq0 : 0 ≤ 100 * current / total := Int.ediv_nonneg (by omega) (by omega)
  have hq1 : 100 * current / total ≤ 100 := Int.ediv_le_of_le_mul ht (by omega)
  unfold limitValue
  rw [if_neg (by omega), if_neg (by omega)]

/-- C19, the code at the failing input: `current = total = 21474837` are
32-bit integers with `total > 0` and `0 <= current <= total`.  The product
`100 * current = 2147483700` does not fit 32 bits and wraps to -2147483596;
the division gives -99 and `limitValue` raises it to 0.  `CalcPerc` returns 0:
not 100, and not the floor of the wrapped product over `total` (-100)
either.  With one less, 21474836, the product fits and the result is 100. -/
theorem CalcPerc_overflow :
    INT_MIN ≤ 21474837 ∧ (21474837 : Int) ≤ INT_MAX ∧
    INT_MAX < 100 * (21474837 : Int) ∧
    wrap32 (100 * 21474837) = -2147483596 ∧
    (-2147483596 : Int).tdiv 21474837 = -99 ∧
    (-2147483596 : Int) / 21474837 = -100 ∧
    CalcPerc 21474837 21474837 = some 0 ∧
    CalcPerc 21474836 21474836 = some 100 := by
  decide

theorem UpdateMessage_fields (env : Env) (msg : String) (t : Int) (hl : Bool)
    (w : NotificationWnd) :
    (w.UpdateMessage env msg t hl).highlight = hl ∧
    (w.UpdateMessage env msg t hl).timeoutMs = t ∧
    (w.hasWindow = true → (w.UpdateMessage env msg t hl).text = msg) := by
  unfold NotificationWnd.UpdateMessage NotificationWnd.Layout NotificationWnd.SetTimer
    NotificationWnd.HwndSetText NotificationWnd.SetWindowXY NotificationWnd.SetWindowSize
  simp only [apply_ite NotificationWnd.highlight, apply_ite NotificationWnd.timeoutMs,
    apply_ite NotificationWnd.text]
  refine ⟨by simp, by simp, ?_⟩
  intro hw
  simp [hw]

theorem InvX.UpdateNotificationProgress_obj {d : Bool} {extra : List Nat} {s : State}
    (hi : InvX d extra s) (env : Env) {w : Nat} (hw : w ∈ s.gNotifs) (msg : String)
    (perc : Int) :
    (UpdateNotificationProgress env w msg perc s).1 = true ∧
    (UpdateNotificationProgress env w msg perc s).2.obj w
      = NotificationWnd.UpdateMessage env msg 0 false { s.obj w with progressPerc := perc } := by
  have hlt := hi.reg_lt hw
  unfold UpdateNotificationProgress
  simp only [IsNotificationValid, hw, decide_True, Bool.not_true, Bool.false_eq_true, if_false]
  refine ⟨trivial, ?_⟩
  rw [obj_modify, if_pos ⟨rfl, by rw [length_modify, touch_heap]; exact hlt⟩,
    obj_modify, if_pos ⟨rfl, by rw [touch_heap]; exact hlt⟩, touch_obj]

/-- C20: for every notification `w` registered in a reachable state, whatever
its `highlight` and `timeoutMs` were and whatever `perc` is,
`UpdateNotificationProgress(w, msg, perc)` returns true and leaves `w` as
`UpdateMessage(msg, 0, false)` makes it after `progressPerc` was stored:
`highlight` is false, `timeoutMs` is 0 and the window text is the `msg` passed
in. -/
theorem progress_update_resets (ops : List (Env × Op)) (env : Env) (w : Nat) (msg : String)
    (perc : Int) (hw : w ∈ (run ops State.init).gNotifs) :
    (UpdateNotificationProgress env w msg perc (run ops State.init)).1 = true ∧
    (UpdateNotificationProgress env w msg perc (run ops State.init)).2.obj w
      = NotificationWnd.UpdateMessage env msg 0 false
          { (run ops State.init).obj w with progressPerc := perc } ∧
    ((UpdateNotificationProgress env w msg perc (run ops State.init)).2.obj w).highlight
      = false ∧
    ((UpdateNotificationProgress env w msg perc (run ops State.init)).2.obj w).timeoutMs = 0 ∧
    ((UpdateNotificationProgress env w msg perc (run ops State.init)).2.obj w).text = msg := by
  have hi := run_inv ops
  generalize run ops State.init = s at hi hw
  obtain ⟨h1, h2⟩ := hi.UpdateNotificationProgress_obj env hw msg perc
  have hf := UpdateMessage_fields env msg 0 false { s.obj w with progressPerc := perc }
  have hhas : NotificationWnd.hasWindow { s.obj w with progressPerc := perc } = true := by
    have := hi.hasWindow hw
    simpa [NotificationWnd.hasWindow] using this
  rw [h2]
  exact ⟨h1, rfl, hf.1, hf.2.1, hf.2.2 hhas⟩

theorem progress_update_resets_witness :
    0 ∈ (run [(sampleEnv, Op.showNotification (warningArgs "Saving") true)] State.init).gNotifs ∧
    ((run [(sampleEnv, Op.showNotification (warningArgs "Saving") true)] State.init).obj
        0).highlight = true ∧
    ((run [(sampleEnv, Op.showNotification (warningArgs "Saving") true)] State.init).obj
        0).timeoutMs = 2000 ∧
    ((UpdateNotificationProgress sampleEnv 0 "50%" 50
      (run [(sampleEnv, Op.showNotification (warningArgs "Saving") true)] State.init)).2.obj
        0).highlight = false ∧
    ((UpdateNotificationProgress sampleEnv 0 "50%" 50
      (run [(sampleEnv, Op.showNotification (warningArgs "Saving") true)] State.init)).2.obj
        0).timeoutMs = 0 ∧
    ((UpdateNotificationProgress sampleEnv 0 "50%" 50
      (run [(sampleEnv, Op.showNotification (warningArgs "Saving") true)] State.init)).2.obj
        0).text = "50%" :=
  have h := progress_update_resets
    [(sampleEnv, Op.showNotification (warningArgs "Saving") true)] sampleEnv 0 "50%" 50
    (by decide)
  ⟨by decide, by decide, by decide, h.2.2.1, h.2.2.2.1, h.2.2.2.2⟩

end Notifications
